import Mathlib

/-!
SFML `sf::Transform`, `sf::View`, `sf::Time`, `sf::Color` and `sf::Vector2`: a shallow
embedding and its verified properties

The embedding follows `src/SFML/Graphics/Transform.cpp`, `src/SFML/Graphics/View.cpp`,
`include/SFML/Graphics/View.inl`, `include/SFML/System/Time.inl`,
`include/SFML/Graphics/Color.inl` and `include/SFML/System/Vector2.inl`.

* `float` arithmetic is given twice. In the first part a `float` is an exact rational
  (`ℚ`) and every operation is carried out without rounding, overflow or NaN: what
  is proved there is a statement about exact arithmetic. Namespace `binary32` has
  the same functions over the IEEE 754 binary32 values (`Float32`), every operation
  rounded to nearest, ties to even; what the compiled code returns for given floats
  is stated there.
* `std::array<float, 16>` is a record of sixteen entries; field `mK` stands for
  `m_matrix[K]`.
* A member function that mutates `*this` and returns `*this` becomes a function
  from the receiver's old value to its new value; the returned reference
  designates that same new value, so a chain `t.f(..).g(..)` is `g .. (f .. t)`.
* `std::cos`, `std::sin` and `Math::pi_v<float>` are parameters (`Trig`).
* `static_cast<int>` is partial (`Option`): it is undefined where the truncated
  value does not fit a 32-bit `int`.
* `Int32` and `Int64` values are integers; 64-bit arithmetic wraps explicitly
  (`wrapInt64`).
* `Uint8` and `Uint32` values are natural numbers; narrowing and 32-bit shifts are
  reduced modulo `2^8` and `2^32` explicitly.
* A binary operator that writes to its left operand returns the operand afterwards
  together with the value of the returned reference.
* An operator expression is resolved to one of the declared overloads; where the
  selected function has no definition the expression has no value (`none`).
* `sf::View` follows `View.inl` and `View.cpp`; a read accessor that refreshes a
  `mutable` cache returns the value together with the view afterwards.
-/

namespace sf

/-! ## Data model -/

/-- Sixteen floats, `std::array<float, 16>`; `mK` is the entry at index `K`. -/
structure Matrix4x4 where
  m0 : ℚ
  m1 : ℚ
  m2 : ℚ
  m3 : ℚ
  m4 : ℚ
  m5 : ℚ
  m6 : ℚ
  m7 : ℚ
  m8 : ℚ
  m9 : ℚ
  m10 : ℚ
  m11 : ℚ
  m12 : ℚ
  m13 : ℚ
  m14 : ℚ
  m15 : ℚ
  deriving DecidableEq

/-- Class `sf::Transform`: its only data member is `m_matrix`. -/
structure Transform where
  m_matrix : Matrix4x4
  deriving DecidableEq

/-- Two float coordinates, `sf::Vector2f`. -/
structure Vector2f where
  x : ℚ
  y : ℚ
  deriving DecidableEq

/-- Unary `operator -(const Vector2<T>&)` of `Vector2.inl`. -/
def Vector2f.opNeg (right : Vector2f) : Vector2f :=
  { x := -right.x, y := -right.y }

/-- Axis-aligned rectangle `sf::FloatRect`, built by `FloatRect(left, top, width, height)`. -/
structure FloatRect where
  left : ℚ
  top : ℚ
  width : ℚ
  height : ℚ
  deriving DecidableEq

/-- What the rotations take from `<cmath>` and `MathConstants.hpp`: the constant
`Math::pi_v<float>` and the functions `std::cos` and `std::sin`. -/
structure Trig where
  pi : ℚ
  cos : ℚ → ℚ
  sin : ℚ → ℚ

/-- Binary `operator +(const Vector2<T>&, const Vector2<U>&)` of `Vector2.inl`. -/
def Vector2f.opAdd (left right : Vector2f) : Vector2f :=
  { x := left.x + right.x, y := left.y + right.y }

/-! ## Language and library primitives -/

/-- Truncation toward zero: the integer obtained by discarding the fractional part. -/
def truncToZero (v : ℚ) : ℤ :=
  if 0 ≤ v then ⌊v⌋ else ⌈v⌉

/-- Conversion `static_cast<int>(float)`, for a 32-bit `int`: the value truncated
toward zero; the behaviour is undefined (`none`) when the truncated value cannot be
represented in `int`. -/
def static_cast_int (v : ℚ) : Option ℤ :=
  if -2 ^ 31 ≤ truncToZero v ∧ truncToZero v ≤ 2 ^ 31 - 1 then some (truncToZero v) else none

/-- Function `fmod` of `<cmath>` for a non-zero divisor: `x - n * y`, where `n` is
`x / y` with its fractional part discarded. -/
def fmod (x y : ℚ) : ℚ :=
  x - (truncToZero (x / y) : ℚ) * y

namespace Transform

/-! ## Constructors and accessors -/

/-- Default constructor `Transform::Transform()`: the identity matrix. -/
def Transform0 : sf.Transform :=
  { m_matrix :=
      { m0 := 1, m1 := 0, m2 := 0, m3 := 0,
        m4 := 0, m5 := 1, m6 := 0, m7 := 0,
        m8 := 0, m9 := 0, m10 := 1, m11 := 0,
        m12 := 0, m13 := 0, m14 := 0, m15 := 1 } }

/-- Nine-coefficient constructor `Transform::Transform(a00, ..., a22)`; the
sixteen entries are listed in the order of the source's initializer. -/
def Transform9 (a00 a01 a02 a10 a11 a12 a20 a21 a22 : ℚ) : sf.Transform :=
  { m_matrix :=
      { m0 := a00, m1 := a10, m2 := 0, m3 := a20,
        m4 := a01, m5 := a11, m6 := 0, m7 := a21,
        m8 := 0, m9 := 0, m10 := 1, m11 := 0,
        m12 := a02, m13 := a12, m14 := 0, m15 := a22 } }

/-- The static constant `Transform::Identity`, default-constructed. -/
def Identity : sf.Transform := Transform0

/-- Overload `Transform::setMatrix(const Matrix4x4&)`. -/
def setMatrix (_self : sf.Transform) (inValue : Matrix4x4) : sf.Transform :=
  { m_matrix := inValue }

/-- Accessor `Transform::getMatrix`. -/
def getMatrix (self : sf.Transform) : Matrix4x4 := self.m_matrix

/-! ## Inverse -/

/-- The local constant `det` of `Transform::getInverse`, evaluated without rounding;
`binary32.Transform.det` is the rounded value the code tests. -/
def det (self : sf.Transform) : ℚ :=
  let m := self.m_matrix
  m.m0 * (m.m15 * m.m5 - m.m7 * m.m13) -
    m.m1 * (m.m15 * m.m4 - m.m7 * m.m12) +
    m.m3 * (m.m13 * m.m4 - m.m5 * m.m12)

/-- Member `Transform::getInverse`, evaluated without rounding; see
`binary32.Transform.getInverse` for the rounded evaluation. -/
def getInverse (self : sf.Transform) : sf.Transform :=
  let m := self.m_matrix
  let det := self.det
  if det ≠ 0 then
    Transform9 ((m.m15 * m.m5 - m.m7 * m.m13) / det)
               (-(m.m15 * m.m4 - m.m7 * m.m12) / det)
               ((m.m13 * m.m4 - m.m5 * m.m12) / det)
               (-(m.m15 * m.m1 - m.m3 * m.m13) / det)
               ((m.m15 * m.m0 - m.m3 * m.m12) / det)
               (-(m.m13 * m.m0 - m.m1 * m.m12) / det)
               ((m.m7 * m.m1 - m.m3 * m.m5) / det)
               (-(m.m7 * m.m0 - m.m3 * m.m4) / det)
               ((m.m5 * m.m0 - m.m1 * m.m4) / det)
  else
    Identity

/-! ## Points and rectangles -/

/-- Overload `Transform::transformPoint(float x, float y)`, evaluated without
rounding; see `binary32.Transform.transformPoint` for the rounded evaluation. -/
def transformPoint (self : sf.Transform) (x y : ℚ) : Vector2f :=
  let m := self.m_matrix
  { x := m.m0 * x + m.m4 * y + m.m12,
    y := m.m1 * x + m.m5 * y + m.m13 }

/-- Overload `Transform::transformPoint(const Vector2f&)`. -/
def transformPointV (self : sf.Transform) (point : Vector2f) : Vector2f :=
  self.transformPoint point.x point.y

/-- The four locals `left`, `top`, `right`, `bottom` of `Transform::transformRect`. -/
@[ext] structure Bounds where
  left : ℚ
  top : ℚ
  right : ℚ
  bottom : ℚ
  deriving DecidableEq

/-- One pass of the body of the `for` loop of `Transform::transformRect` for the
point `p = points[i]`. -/
def transformRectStep (b : Bounds) (p : Vector2f) : Bounds :=
  let b1 : Bounds :=
    if p.x < b.left then { b with left := p.x }
    else if p.x > b.right then { b with right := p.x }
    else b
  if p.y < b1.top then { b1 with top := p.y }
  else if p.y > b1.bottom then { b1 with bottom := p.y }
  else b1

/-- The array `points` of `Transform::transformRect`: the four transformed corners. -/
def transformRectPoints (self : sf.Transform) (rectangle : FloatRect) : List Vector2f :=
  [ self.transformPoint rectangle.left rectangle.top,
    self.transformPoint rectangle.left (rectangle.top + rectangle.height),
    self.transformPoint (rectangle.left + rectangle.width) rectangle.top,
    self.transformPoint (rectangle.left + rectangle.width) (rectangle.top + rectangle.height) ]

/-- Member `Transform::transformRect`: the bounds start at `points[0]` and the loop
runs over `points[1]`, `points[2]`, `points[3]`. The corners and the differences
`right - left` and `bottom - top` are exact here and rounded in
`binary32.Transform.transformRect`. -/
def transformRect (self : sf.Transform) (rectangle : FloatRect) : FloatRect :=
  let p0 := self.transformPoint rectangle.left rectangle.top
  let b := ((self.transformRectPoints rectangle).drop 1).foldl transformRectStep
    { left := p0.x, top := p0.y, right := p0.x, bottom := p0.y }
  { left := b.left, top := b.top, width := b.right - b.left, height := b.bottom - b.top }

/-! ## Combination -/

/-- Member `Transform::combine`: the new value of `*this`. -/
def combine (self transform : sf.Transform) : sf.Transform :=
  let a := self.m_matrix
  let b := transform.m_matrix
  Transform9 (a.m0 * b.m0 + a.m4 * b.m1 + a.m12 * b.m3)
             (a.m0 * b.m4 + a.m4 * b.m5 + a.m12 * b.m7)
             (a.m0 * b.m12 + a.m4 * b.m13 + a.m12 * b.m15)
             (a.m1 * b.m0 + a.m5 * b.m1 + a.m13 * b.m3)
             (a.m1 * b.m4 + a.m5 * b.m5 + a.m13 * b.m7)
             (a.m1 * b.m12 + a.m5 * b.m13 + a.m13 * b.m15)
             (a.m3 * b.m0 + a.m7 * b.m1 + a.m15 * b.m3)
             (a.m3 * b.m4 + a.m7 * b.m5 + a.m15 * b.m7)
             (a.m3 * b.m12 + a.m7 * b.m13 + a.m15 * b.m15)

/-- Overload `Transform::translate(float x, float y)`. -/
def translate (self : sf.Transform) (x y : ℚ) : sf.Transform :=
  self.combine (Transform9 1 0 x 0 1 y 0 0 1)

/-- Overload `Transform::translate(const Vector2f&)`. -/
def translateV (self : sf.Transform) (offset : Vector2f) : sf.Transform :=
  self.translate offset.x offset.y

/-- Overload `Transform::rotate(float angle)`. -/
def rotate (T : Trig) (self : sf.Transform) (angle : ℚ) : sf.Transform :=
  let rad := angle * T.pi / 180
  let cosine := T.cos rad
  let sine := T.sin rad
  self.combine (Transform9 cosine (-sine) 0 sine cosine 0 0 0 1)

/-- Overload `Transform::rotate(float angle, float centerX, float centerY)`, evaluated
without rounding; see `binary32.Transform.rotateCenter` for the rounded evaluation. -/
def rotateCenter (T : Trig) (self : sf.Transform) (angle centerX centerY : ℚ) : sf.Transform :=
  let rad := angle * T.pi / 180
  let cosine := T.cos rad
  let sine := T.sin rad
  self.combine (Transform9 cosine (-sine) (centerX * (1 - cosine) + centerY * sine)
                           sine cosine (centerY * (1 - cosine) - centerX * sine)
                           0 0 1)

/-- Overload `Transform::rotate(float angle, const Vector2f& center)`. -/
def rotateCenterV (T : Trig) (self : sf.Transform) (angle : ℚ) (center : Vector2f) : sf.Transform :=
  self.rotateCenter T angle center.x center.y

/-- Overload `Transform::scale(float scaleX, float scaleY)`. -/
def scale (self : sf.Transform) (scaleX scaleY : ℚ) : sf.Transform :=
  self.combine (Transform9 scaleX 0 0 0 scaleY 0 0 0 1)

/-- Overload `Transform::scale(float scaleX, float scaleY, float centerX, float centerY)`,
evaluated without rounding; see `binary32.Transform.scaleCenter` for the rounded
evaluation. -/
def scaleCenter (self : sf.Transform) (scaleX scaleY centerX centerY : ℚ) : sf.Transform :=
  self.combine (Transform9 scaleX 0 (centerX * (1 - scaleX))
                           0 scaleY (centerY * (1 - scaleY))
                           0 0 1)

/-! ## Operators -/

/-- Free function `operator *(const Transform&, const Transform&)`: copy, then combine. -/
def opMul (left right : sf.Transform) : sf.Transform := left.combine right

/-- Free function `operator *(const Transform&, const Vector2f&)`. -/
def opMulV (left : sf.Transform) (right : Vector2f) : Vector2f := left.transformPointV right

/-- Free function `operator ==(const Transform&, const Transform&)`. -/
def opEq (left right : sf.Transform) : Bool :=
  let a := left.getMatrix
  let b := right.getMatrix
  (decide (a.m0 = b.m0) && decide (a.m1 = b.m1) && decide (a.m3 = b.m3) &&
   decide (a.m4 = b.m4) && decide (a.m5 = b.m5) && decide (a.m7 = b.m7) &&
   decide (a.m12 = b.m12) && decide (a.m13 = b.m13) && decide (a.m15 = b.m15))

/-- Free function `operator !=(const Transform&, const Transform&)`. -/
def opNe (left right : sf.Transform) : Bool := !(opEq left right)

/-! ## Statement vocabulary -/

/-- The 3x3 matrix embedded in a transform: rows `(m0, m4, m12)`, `(m1, m5, m13)`,
`(m3, m7, m15)`. -/
def M (t : sf.Transform) : Matrix (Fin 3) (Fin 3) ℚ :=
  let m := t.m_matrix
  Matrix.of ![![m.m0, m.m4, m.m12], ![m.m1, m.m5, m.m13], ![m.m3, m.m7, m.m15]]

/-- Affine transforms: the bottom row of the embedded matrix, entries 3, 7 and 15,
is `(0, 0, 1)`. -/
def IsAffine (t : sf.Transform) : Prop :=
  t.m_matrix.m3 = 0 ∧ t.m_matrix.m7 = 0 ∧ t.m_matrix.m15 = 1

instance (t : sf.Transform) : Decidable (IsAffine t) := by
  unfold IsAffine
  infer_instance

/-! ## Pixel snapping -/

/-- Member `Transform::floorTranslation`: entries 12 and 13 go through
`static_cast<float>(static_cast<int>(..))`; `none` when a conversion to `int` is
undefined. -/
def floorTranslation (self : sf.Transform) : Option sf.Transform :=
  match static_cast_int self.m_matrix.m12 with
  | none => none
  | some i12 =>
    match static_cast_int self.m_matrix.m13 with
    | none => none
    | some i13 =>
      some { m_matrix := { self.m_matrix with m12 := (i12 : ℚ), m13 := (i13 : ℚ) } }

/-! ## Sequences of mutating calls -/

/-- One mutating call on a transform, with its arguments. -/
inductive Op where
  | combine (transform : sf.Transform)
  | translate (x y : ℚ)
  | translateV (offset : Vector2f)
  | rotate (angle : ℚ)
  | rotateCenter (angle centerX centerY : ℚ)
  | rotateCenterV (angle : ℚ) (center : Vector2f)
  | scale (scaleX scaleY : ℚ)
  | scaleCenter (scaleX scaleY centerX centerY : ℚ)
  | floorTranslation

/-- The receiver after one call; `none` when the call has undefined behaviour. -/
def Op.apply (T : Trig) (op : Op) (self : sf.Transform) : Option sf.Transform :=
  match op with
  | .combine transform => some (self.combine transform)
  | .translate x y => some (self.translate x y)
  | .translateV offset => some (self.translateV offset)
  | .rotate angle => some (self.rotate T angle)
  | .rotateCenter angle centerX centerY => some (self.rotateCenter T angle centerX centerY)
  | .rotateCenterV angle center => some (self.rotateCenterV T angle center)
  | .scale scaleX scaleY => some (self.scale scaleX scaleY)
  | .scaleCenter scaleX scaleY centerX centerY =>
      some (self.scaleCenter scaleX scaleY centerX centerY)
  | .floorTranslation => self.floorTranslation

/-- The receiver after a sequence of calls, made from left to right. -/
def runOps (T : Trig) (ops : List Op) (self : sf.Transform) : Option sf.Transform :=
  match ops with
  | [] => some self
  | op :: rest =>
    match op.apply T self with
    | none => none
    | some next => runOps T rest next

/-- The seven entries outside the embedded 3x3 matrix hold their fixed values:
entries 2, 6, 8, 9, 11 and 14 of `getMatrix()` are 0 and entry 10 is 1. -/
def FixedEntries (t : sf.Transform) : Prop :=
  t.getMatrix.m2 = 0 ∧ t.getMatrix.m6 = 0 ∧ t.getMatrix.m8 = 0 ∧ t.getMatrix.m9 = 0 ∧
    t.getMatrix.m11 = 0 ∧ t.getMatrix.m14 = 0 ∧ t.getMatrix.m10 = 1

instance (t : sf.Transform) : Decidable (FixedEntries t) := by
  unfold FixedEntries
  infer_instance

end Transform

/-! ## Class `sf::View` -/

/-- Class `sf::View`: the data members read and written by `View.inl` and
`View.cpp`. The class declaration (`View.hpp`) is not among the sources; the values
the members have before a constructor body runs are a parameter of the constructors. -/
structure View where
  m_center : Vector2f
  m_size : Vector2f
  m_rotation : ℚ
  m_viewport : FloatRect
  m_transform : Transform
  m_inverseTransform : Transform
  m_transformUpdated : Bool
  m_invTransformUpdated : Bool
  deriving DecidableEq

namespace View

/-- Overload `View::setCenter(float x, float y)`. -/
def setCenter (self : View) (x y : ℚ) : View :=
  { self with
    m_center := { x := x, y := y },
    m_transformUpdated := false,
    m_invTransformUpdated := false }

/-- Overload `View::setCenter(const Vector2f&)`. -/
def setCenterV (self : View) (center : Vector2f) : View :=
  self.setCenter center.x center.y

/-- Overload `View::setSize(float width, float height)`. -/
def setSize (self : View) (width height : ℚ) : View :=
  { self with
    m_size := { x := width, y := height },
    m_transformUpdated := false,
    m_invTransformUpdated := false }

/-- Overload `View::setSize(const Vector2f&)`. -/
def setSizeV (self : View) (size : Vector2f) : View :=
  self.setSize size.x size.y

/-- Member `View::setViewport`. -/
def setViewport (self : View) (viewport : FloatRect) : View :=
  { self with m_viewport := viewport }

/-- Member `View::reset`. -/
def reset (self : View) (rectangle : FloatRect) : View :=
  { self with
    m_center := { x := rectangle.left + rectangle.width / 2,
                  y := rectangle.top + rectangle.height / 2 },
    m_size := { x := rectangle.width, y := rectangle.height },
    m_rotation := 0,
    m_transformUpdated := false,
    m_invTransformUpdated := false }

/-- Default constructor `View::View()`; `members` holds the data members as they are
when the constructor body starts. -/
def View0 (members : View) : View :=
  members.reset { left := 0, top := 0, width := 1000, height := 1000 }

/-- Constructor `View::View(const FloatRect&)`. -/
def ViewRect (members : View) (rectangle : FloatRect) : View :=
  members.reset rectangle

/-- Constructor `View::View(const Vector2f& center, const Vector2f& size)`. -/
def ViewCenterSize (members : View) (center size : Vector2f) : View :=
  { members with m_center := center, m_size := size }

/-- Member `View::setRotation`, with `fmod` and the sum `rotation + 360` evaluated
without rounding. -/
def setRotation (self : View) (angle : ℚ) : View :=
  let rotation := fmod angle 360
  { self with
    m_rotation := if rotation < 0 then rotation + 360 else rotation,
    m_transformUpdated := false,
    m_invTransformUpdated := false }

/-- Member `View::rotate`. -/
def rotate (self : View) (angle : ℚ) : View :=
  self.setRotation (self.m_rotation + angle)

/-- Accessor `View::getCenter`. -/
def getCenter (self : View) : Vector2f := self.m_center

/-- Accessor `View::getSize`. -/
def getSize (self : View) : Vector2f := self.m_size

/-- Accessor `View::getRotation`. -/
def getRotation (self : View) : ℚ := self.m_rotation

/-- Accessor `View::getViewport`. -/
def getViewport (self : View) : FloatRect := self.m_viewport

/-- Overload `View::move(float offsetX, float offsetY)`. -/
def move (self : View) (offsetX offsetY : ℚ) : View :=
  self.setCenter (self.m_center.x + offsetX) (self.m_center.y + offsetY)

/-- Overload `View::move(const Vector2f&)`, whose body is
`setCenter(m_center + offset)`. The sum is taken to be the memberwise sum of
`operator +(const Vector2<T>&, const Vector2<U>&)`. As the source stands, overload
resolution prefers for the non-const member `m_center` the template
`operator +(Vector2<T>&, const U)` of `Vector2.inl`, whose body converts its right
operand to `float` and is ill-formed for a vector operand: a compiler rejects this
body as written. -/
def moveV (self : View) (offset : Vector2f) : View :=
  self.setCenterV (self.m_center.opAdd offset)

/-- Member `View::zoom`. -/
def zoom (self : View) (factor : ℚ) : View :=
  self.setSize (self.m_size.x * factor) (self.m_size.y * factor)

/-- Member `View::getTransform`: the returned transform and the view afterwards
(the cache members are `mutable`), evaluated without rounding; see
`binary32.View.getTransform` for the rounded evaluation. A float quotient by a zero
size component is infinite; the rationals give 0 there. -/
def getTransform (T : Trig) (self : View) : Transform × View :=
  if !self.m_transformUpdated then
    let angle := self.m_rotation * T.pi / 180
    let cosine := T.cos angle
    let sine := T.sin angle
    let tx := -self.m_center.x * cosine - self.m_center.y * sine + self.m_center.x
    let ty := self.m_center.x * sine - self.m_center.y * cosine + self.m_center.y
    let a := 2 / self.m_size.x
    let b := -2 / self.m_size.y
    let c := -a * self.m_center.x
    let d := -b * self.m_center.y
    let m_transform := Transform.Transform9 (a * cosine) (a * sine) (a * tx + c)
                                            (-b * sine) (b * cosine) (b * ty + d)
                                            0 0 1
    (m_transform, { self with m_transform := m_transform, m_transformUpdated := true })
  else
    (self.m_transform, self)

/-- Member `View::getInverseTransform`: the returned transform and the view
afterwards. -/
def getInverseTransform (T : Trig) (self : View) : Transform × View :=
  if !self.m_invTransformUpdated then
    let forward := self.getTransform T
    let m_inverseTransform := forward.1.getInverse
    (m_inverseTransform,
      { forward.2 with m_inverseTransform := m_inverseTransform, m_invTransformUpdated := true })
  else
    (self.m_inverseTransform, self)

/-! ## Sequences of calls on a view -/

/-- One call on a view, with its arguments. -/
inductive Call where
  | setCenter (x y : ℚ)
  | setCenterV (center : Vector2f)
  | setSize (width height : ℚ)
  | setSizeV (size : Vector2f)
  | setRotation (angle : ℚ)
  | setViewport (viewport : FloatRect)
  | reset (rectangle : FloatRect)
  | move (offsetX offsetY : ℚ)
  | moveV (offset : Vector2f)
  | zoom (factor : ℚ)
  | rotate (angle : ℚ)
  | getTransform
  | getInverseTransform

/-- The view after one call. -/
def Call.apply (T : Trig) (call : Call) (self : View) : View :=
  match call with
  | .setCenter x y => self.setCenter x y
  | .setCenterV center => self.setCenterV center
  | .setSize width height => self.setSize width height
  | .setSizeV size => self.setSizeV size
  | .setRotation angle => self.setRotation angle
  | .setViewport viewport => self.setViewport viewport
  | .reset rectangle => self.reset rectangle
  | .move offsetX offsetY => self.move offsetX offsetY
  | .moveV offset => self.moveV offset
  | .zoom factor => self.zoom factor
  | .rotate angle => self.rotate angle
  | .getTransform => (self.getTransform T).2
  | .getInverseTransform => (self.getInverseTransform T).2

/-- The view after a sequence of calls, made from left to right. -/
def runCalls (T : Trig) (calls : List Call) (self : View) : View :=
  match calls with
  | [] => self
  | call :: rest => runCalls T rest (call.apply T self)

/-- Forward transform derivation of the specification (section 4.2), from a center,
a size and a rotation in degrees. -/
def forwardDerivation (T : Trig) (center size : Vector2f) (rotation : ℚ) : Transform :=
  let angle := rotation * T.pi / 180
  let cosine := T.cos angle
  let sine := T.sin angle
  let tx := -center.x * cosine - center.y * sine + center.x
  let ty := center.x * sine - center.y * cosine + center.y
  let a := 2 / size.x
  let b := -2 / size.y
  let c := -a * center.x
  let d := -b * center.y
  Transform.Transform9 (a * cosine) (a * sine) (a * tx + c)
                       (-b * sine) (b * cosine) (b * ty + d)
                       0 0 1

/-- The caches of a view agree with its center, size and rotation: a valid inverse
cache comes with a valid forward cache, a valid forward cache holds the forward
derivation, and a valid inverse cache holds its inverse. -/
def Coherent (T : Trig) (v : View) : Prop :=
  (v.m_invTransformUpdated = true → v.m_transformUpdated = true) ∧
    (v.m_transformUpdated = true →
      v.m_transform = forwardDerivation T v.m_center v.m_size v.m_rotation) ∧
    (v.m_invTransformUpdated = true →
      v.m_inverseTransform =
        (forwardDerivation T v.m_center v.m_size v.m_rotation).getInverse)

end View

/-! ## Class `sf::Time` -/

/-- The value of a signed 64-bit integer (`Int64`) whose bits are those of `x` in
two's complement: the result of 64-bit arithmetic on the exact result `x`. -/
def wrapInt64 (x : ℤ) : ℤ :=
  (x + 2 ^ 63) % 2 ^ 64 - 2 ^ 63

/-- The values of the type `Int32`. -/
def IsInt32 (n : ℤ) : Prop :=
  -2 ^ 31 ≤ n ∧ n < 2 ^ 31

instance (n : ℤ) : Decidable (IsInt32 n) := by
  unfold IsInt32
  infer_instance

/-- Class `sf::Time`: the data member `m_microseconds` is a `std::chrono` time point
counted in microseconds; the record holds its count since the epoch, an `Int64`. -/
structure Time where
  m_microseconds : ℤ
  deriving DecidableEq

namespace Time

/-- Default constructor `Time::Time()`: zero seconds. -/
def Time0 : Time :=
  { m_microseconds := 0 }

/-- Constructor `Time::Time(Int64 microseconds)`. -/
def TimeMicro (microseconds : ℤ) : Time :=
  { m_microseconds := microseconds }

/-- Member `Time::asMicroseconds`. -/
def asMicroseconds (self : Time) : ℤ :=
  self.m_microseconds

/-- Static member `Time::milliseconds(Int32 amount)`: the amount is widened to
`Int64` and multiplied by 1000 in 64 bits. -/
def milliseconds (amount : ℤ) : Time :=
  TimeMicro (wrapInt64 (amount * 1000))

/-- Static member `Time::microseconds(Int64 amount)`. -/
def microseconds (amount : ℤ) : Time :=
  TimeMicro amount

end Time

/-! ## Class `sf::Color` -/

/-- Conversion of a non-negative integer to `Uint8`. -/
def toUint8 (n : ℕ) : ℕ :=
  n % 256

/-- Class `sf::Color`: four `Uint8` components. The class declaration (`Color.hpp`) is
not among the sources; the members are those `Color.inl` initialises. -/
structure Color where
  r : ℕ
  g : ℕ
  b : ℕ
  a : ℕ
  deriving DecidableEq

namespace Color

/-- The values of the type: every component is a `Uint8`. -/
def IsValid (c : Color) : Prop :=
  c.r < 256 ∧ c.g < 256 ∧ c.b < 256 ∧ c.a < 256

instance (c : Color) : Decidable (IsValid c) := by
  unfold IsValid
  infer_instance

/-- Constructor `Color::Color(Uint8 red, Uint8 green, Uint8 blue, Uint8 alpha)`. -/
def Color4 (red green blue alpha : ℕ) : Color :=
  { r := red, g := green, b := blue, a := alpha }

/-- Constructor `Color::Color(Uint32 color)`: each masked and shifted value is
narrowed to `Uint8`. -/
def ColorU32 (color : ℕ) : Color :=
  { r := toUint8 ((color &&& 0xff000000) >>> 24),
    g := toUint8 ((color &&& 0x00ff0000) >>> 16),
    b := toUint8 ((color &&& 0x0000ff00) >>> 8),
    a := toUint8 ((color &&& 0x000000ff) >>> 0) }

/-- Member `Color::toInteger`: the components are promoted to a 32-bit `int`, whose
bits are kept modulo `2^32` by each shift, and the result is converted to `Uint32`. -/
def toInteger (self : Color) : ℕ :=
  ((self.r <<< 24) % 2 ^ 32 ||| (self.g <<< 16) % 2 ^ 32 ||| (self.b <<< 8) % 2 ^ 32 |||
    self.a) % 2 ^ 32

/-- Free function `operator ==(const Color&, const Color&)`. -/
def opEq (left right : Color) : Bool :=
  decide (left.r = right.r) && decide (left.g = right.g) && decide (left.b = right.b) &&
    decide (left.a = right.a)

/-- Free function `operator !=(const Color&, const Color&)`. -/
def opNe (left right : Color) : Bool :=
  !(opEq left right)

/-- Free function `operator *(const Color&, const Color&)`: each product is formed in
`int`, divided by 255 and narrowed to `Uint8`. -/
def opMul (left right : Color) : Color :=
  Color4 (toUint8 (left.r * right.r / 255))
         (toUint8 (left.g * right.g / 255))
         (toUint8 (left.b * right.b / 255))
         (toUint8 (left.a * right.a / 255))

end Color

/-! ## Binary32 arithmetic

The type `float` of the source is IEEE 754 binary32. The definitions of this part
give its values and its operations in the default rounding mode (to nearest, ties to
even), each operation rounding once: no fused multiply-add and no wider intermediate
precision. -/

/-- Rounding of a rational to the nearest integer, a tie going to the even neighbour. -/
def roundHalfEven (x : ℚ) : ℤ :=
  if x - ⌊x⌋ < 1 / 2 then ⌊x⌋
  else if 1 / 2 < x - ⌊x⌋ then ⌊x⌋ + 1
  else if ⌊x⌋ % 2 = 0 then ⌊x⌋ else ⌊x⌋ + 1

/-- Number of binary digits of `n`, found by at most `fuel` halvings; `bitLength n n`
is the number of binary digits of `n`. -/
def bitLength : ℕ → ℕ → ℕ
  | 0, _ => 0
  | fuel + 1, n => if n = 0 then 0 else bitLength fuel (n / 2) + 1

/-- The binary exponent of a non-zero rational `q`: the `e` with
`2^e ≤ |q| < 2^(e+1)`. The difference of the digit counts of numerator and
denominator is `e` or `e + 1`; the comparison tells which. -/
def binade (q : ℚ) : ℤ :=
  if |q| < 2 ^ ((bitLength q.num.natAbs q.num.natAbs : ℤ) - (bitLength q.den q.den : ℤ))
  then (bitLength q.num.natAbs q.num.natAbs : ℤ) - (bitLength q.den q.den : ℤ) - 1
  else (bitLength q.num.natAbs q.num.natAbs : ℤ) - (bitLength q.den q.den : ℤ)

/-- Exponent of the spacing of the binary32 values around `q`: 24 significant bits,
and never finer than the subnormal spacing `2^-149`. -/
def ulpExponent (q : ℚ) : ℤ :=
  max (binade q - 23) (-149)

/-- The multiple of the local spacing nearest to `q`, ties to even: the binary32
rounding of `q` as long as the result stays in the finite range. -/
def round32 (q : ℚ) : ℚ :=
  (roundHalfEven (q / 2 ^ ulpExponent q) : ℚ) * 2 ^ ulpExponent q

/-- The values of the type `float`: a finite value, an infinity with its sign, or a
NaN. The two zeros are the one value `fin 0`, and a `fin` holds a rational that
binary32 represents. -/
inductive Float32 where
  | fin (value : ℚ)
  | inf (negative : Bool)
  | nan
  deriving DecidableEq

namespace Float32

/-- The largest finite binary32 value, `(2^24 - 1) * 2^104`. -/
def maxFinite : ℚ := (2 ^ 24 - 1) * 2 ^ 104

/-- The binary32 value of an exact result `q`: the rounded value, or an infinity when
the rounded value exceeds the finite range. -/
def ofRat (q : ℚ) : Float32 :=
  if maxFinite < |round32 q| then inf (decide (q < 0)) else fin (round32 q)

/-- Unary minus. -/
def neg : Float32 → Float32
  | fin a => fin (-a)
  | inf s => inf (!s)
  | nan => nan

/-- Addition: the exact sum, rounded; opposite infinities give a NaN. -/
def add : Float32 → Float32 → Float32
  | fin a, fin b => ofRat (a + b)
  | fin _, inf t => inf t
  | inf s, fin _ => inf s
  | inf s, inf t => if s = t then inf s else nan
  | nan, _ => nan
  | fin _, nan => nan
  | inf _, nan => nan

/-- Subtraction: the addition of the negated right operand. -/
def sub (a b : Float32) : Float32 :=
  add a (neg b)

/-- Multiplication: the exact product, rounded; zero times an infinity gives a NaN. -/
def mul : Float32 → Float32 → Float32
  | fin a, fin b => ofRat (a * b)
  | fin a, inf t => if a = 0 then nan else inf (xor (decide (a < 0)) t)
  | inf s, fin b => if b = 0 then nan else inf (xor s (decide (b < 0)))
  | inf s, inf t => inf (xor s t)
  | nan, _ => nan
  | fin _, nan => nan
  | inf _, nan => nan

/-- Division: the exact quotient, rounded. A zero divisor gives a NaN for a zero
dividend and otherwise an infinity, here with the sign of the dividend (the sign of
a zero is not recorded). -/
def div : Float32 → Float32 → Float32
  | fin a, fin b =>
      if b = 0 then (if a = 0 then nan else inf (decide (a < 0))) else ofRat (a / b)
  | fin _, inf _ => fin 0
  | inf s, fin b => inf (xor s (decide (b < 0)))
  | inf _, inf _ => nan
  | nan, _ => nan
  | fin _, nan => nan
  | inf _, nan => nan

/-- Comparison `<`: false when an operand is a NaN. -/
def lt : Float32 → Float32 → Bool
  | fin a, fin b => decide (a < b)
  | fin _, inf t => !t
  | inf s, fin _ => s
  | inf s, inf t => s && !t
  | nan, _ => false
  | fin _, nan => false
  | inf _, nan => false

/-- Comparison `!=`: true when an operand is a NaN. -/
def ne : Float32 → Float32 → Bool
  | fin a, fin b => decide (a ≠ b)
  | fin _, inf _ => true
  | inf _, fin _ => true
  | inf s, inf t => decide (s ≠ t)
  | nan, _ => true
  | fin _, nan => true
  | inf _, nan => true

instance : Neg Float32 := ⟨neg⟩

instance : Add Float32 := ⟨add⟩

instance : Sub Float32 := ⟨sub⟩

instance : Mul Float32 := ⟨mul⟩

instance : Div Float32 := ⟨div⟩

instance : LT Float32 := ⟨fun a b => lt a b = true⟩

instance (a b : Float32) : Decidable (a < b) := by
  show Decidable (lt a b = true)
  infer_instance

/-- A literal such as `1.f`, `2.f` or `180.f`. -/
instance (n : ℕ) : OfNat Float32 n := ⟨ofRat n⟩

end Float32

/-! ## The same classes in binary32

Namespace `binary32` holds the functions of `Transform.cpp`, `View.inl`, `View.cpp`
and `Vector2.inl` once more, expression for expression, with `float` as `Float32`:
every product, quotient, sum and difference is rounded, and may overflow. -/

namespace binary32

/-- Sixteen floats, `std::array<float, 16>`; `mK` is the entry at index `K`. -/
structure Matrix4x4 where
  m0 : Float32
  m1 : Float32
  m2 : Float32
  m3 : Float32
  m4 : Float32
  m5 : Float32
  m6 : Float32
  m7 : Float32
  m8 : Float32
  m9 : Float32
  m10 : Float32
  m11 : Float32
  m12 : Float32
  m13 : Float32
  m14 : Float32
  m15 : Float32
  deriving DecidableEq

/-- Class `sf::Transform`: its only data member is `m_matrix`. -/
structure Transform where
  m_matrix : Matrix4x4
  deriving DecidableEq

/-- Two float coordinates, `sf::Vector2f`. -/
structure Vector2f where
  x : Float32
  y : Float32
  deriving DecidableEq

/-- Axis-aligned rectangle `sf::FloatRect`, built by `FloatRect(left, top, width, height)`. -/
structure FloatRect where
  left : Float32
  top : Float32
  width : Float32
  height : Float32
  deriving DecidableEq

/-- What the rotations take from `<cmath>` and `MathConstants.hpp`: the constant
`Math::pi_v<float>` and the functions `std::cos` and `std::sin` on `float`. -/
structure Trig where
  pi : Float32
  cos : Float32 → Float32
  sin : Float32 → Float32

/-- The constant `Math::pi_v<float>` and the values of `std::cos` and `std::sin` at
the two arguments the statements below use: the angle 0, with cosine 1 and sine 0,
and the float nearest to a quarter turn, `13176795 / 2^23`, whose cosine rounds to
`-12303662 / 2^48` (about `-4.371139e-8`) and whose sine rounds to 1. Any other
argument is given the values of the angle 0. -/
def libm : Trig :=
  { pi := Float32.fin (13176795 / 4194304),
    cos := fun rad =>
      if rad = Float32.fin (13176795 / 8388608) then Float32.fin (-12303662 / 2 ^ 48) else 1,
    sin := fun rad =>
      if rad = Float32.fin (13176795 / 8388608) then 1 else 0 }

namespace Transform

/-- Default constructor `Transform::Transform()`: the identity matrix. -/
def Transform0 : binary32.Transform :=
  { m_matrix :=
      { m0 := 1, m1 := 0, m2 := 0, m3 := 0,
        m4 := 0, m5 := 1, m6 := 0, m7 := 0,
        m8 := 0, m9 := 0, m10 := 1, m11 := 0,
        m12 := 0, m13 := 0, m14 := 0, m15 := 1 } }

/-- Nine-coefficient constructor `Transform::Transform(a00, ..., a22)`; the
sixteen entries are listed in the order of the source's initializer. -/
def Transform9 (a00 a01 a02 a10 a11 a12 a20 a21 a22 : Float32) : binary32.Transform :=
  { m_matrix :=
      { m0 := a00, m1 := a10, m2 := 0, m3 := a20,
        m4 := a01, m5 := a11, m6 := 0, m7 := a21,
        m8 := 0, m9 := 0, m10 := 1, m11 := 0,
        m12 := a02, m13 := a12, m14 := 0, m15 := a22 } }

/-- The static constant `Transform::Identity`, default-constructed. -/
def Identity : binary32.Transform := Transform0

/-- The local constant `det` of `Transform::getInverse`. -/
def det (self : binary32.Transform) : Float32 :=
  let m := self.m_matrix
  m.m0 * (m.m15 * m.m5 - m.m7 * m.m13) -
    m.m1 * (m.m15 * m.m4 - m.m7 * m.m12) +
    m.m3 * (m.m13 * m.m4 - m.m5 * m.m12)

/-- Member `Transform::getInverse`; the test is the float comparison `det != 0.f`. -/
def getInverse (self : binary32.Transform) : binary32.Transform :=
  let m := self.m_matrix
  let det := self.det
  if Float32.ne det 0 then
    Transform9 ((m.m15 * m.m5 - m.m7 * m.m13) / det)
               (-(m.m15 * m.m4 - m.m7 * m.m12) / det)
               ((m.m13 * m.m4 - m.m5 * m.m12) / det)
               (-(m.m15 * m.m1 - m.m3 * m.m13) / det)
               ((m.m15 * m.m0 - m.m3 * m.m12) / det)
               (-(m.m13 * m.m0 - m.m1 * m.m12) / det)
               ((m.m7 * m.m1 - m.m3 * m.m5) / det)
               (-(m.m7 * m.m0 - m.m3 * m.m4) / det)
               ((m.m5 * m.m0 - m.m1 * m.m4) / det)
  else
    Identity

/-- Overload `Transform::transformPoint(float x, float y)`. -/
def transformPoint (self : binary32.Transform) (x y : Float32) : Vector2f :=
  let m := self.m_matrix
  { x := m.m0 * x + m.m4 * y + m.m12,
    y := m.m1 * x + m.m5 * y + m.m13 }

/-- The four locals `left`, `top`, `right`, `bottom` of `Transform::transformRect`. -/
structure Bounds where
  left : Float32
  top : Float32
  right : Float32
  bottom : Float32
  deriving DecidableEq

/-- One pass of the body of the `for` loop of `Transform::transformRect` for the
point `p = points[i]`. -/
def transformRectStep (b : Bounds) (p : Vector2f) : Bounds :=
  let b1 : Bounds :=
    if p.x < b.left then { b with left := p.x }
    else if p.x > b.right then { b with right := p.x }
    else b
  if p.y < b1.top then { b1 with top := p.y }
  else if p.y > b1.bottom then { b1 with bottom := p.y }
  else b1

/-- The array `points` of `Transform::transformRect`: the four transformed corners. -/
def transformRectPoints (self : binary32.Transform) (rectangle : FloatRect) : List Vector2f :=
  [ self.transformPoint rectangle.left rectangle.top,
    self.transformPoint rectangle.left (rectangle.top + rectangle.height),
    self.transformPoint (rectangle.left + rectangle.width) rectangle.top,
    self.transformPoint (rectangle.left + rectangle.width) (rectangle.top + rectangle.height) ]

/-- Member `Transform::transformRect`: the bounds start at `points[0]` and the loop
runs over `points[1]`, `points[2]`, `points[3]`. -/
def transformRect (self : binary32.Transform) (rectangle : FloatRect) : FloatRect :=
  let p0 := self.transformPoint rectangle.left rectangle.top
  let b := ((self.transformRectPoints rectangle).drop 1).foldl transformRectStep
    { left := p0.x, top := p0.y, right := p0.x, bottom := p0.y }
  { left := b.left, top := b.top, width := b.right - b.left, height := b.bottom - b.top }

/-- Member `Transform::combine`: the new value of `*this`. -/
def combine (self transform : binary32.Transform) : binary32.Transform :=
  let a := self.m_matrix
  let b := transform.m_matrix
  Transform9 (a.m0 * b.m0 + a.m4 * b.m1 + a.m12 * b.m3)
             (a.m0 * b.m4 + a.m4 * b.m5 + a.m12 * b.m7)
             (a.m0 * b.m12 + a.m4 * b.m13 + a.m12 * b.m15)
             (a.m1 * b.m0 + a.m5 * b.m1 + a.m13 * b.m3)
             (a.m1 * b.m4 + a.m5 * b.m5 + a.m13 * b.m7)
             (a.m1 * b.m12 + a.m5 * b.m13 + a.m13 * b.m15)
             (a.m3 * b.m0 + a.m7 * b.m1 + a.m15 * b.m3)
             (a.m3 * b.m4 + a.m7 * b.m5 + a.m15 * b.m7)
             (a.m3 * b.m12 + a.m7 * b.m13 + a.m15 * b.m15)

/-- Overload `Transform::translate(float x, float y)`. -/
def translate (self : binary32.Transform) (x y : Float32) : binary32.Transform :=
  self.combine (Transform9 1 0 x 0 1 y 0 0 1)

/-- Overload `Transform::rotate(float angle, float centerX, float centerY)`. -/
def rotateCenter (T : Trig) (self : binary32.Transform) (angle centerX centerY : Float32) :
    binary32.Transform :=
  let rad := angle * T.pi / 180
  let cosine := T.cos rad
  let sine := T.sin rad
  self.combine (Transform9 cosine (-sine) (centerX * (1 - cosine) + centerY * sine)
                           sine cosine (centerY * (1 - cosine) - centerX * sine)
                           0 0 1)

/-- Overload `Transform::scale(float scaleX, float scaleY, float centerX, float centerY)`. -/
def scaleCenter (self : binary32.Transform) (scaleX scaleY centerX centerY : Float32) :
    binary32.Transform :=
  self.combine (Transform9 scaleX 0 (centerX * (1 - scaleX))
                           0 scaleY (centerY * (1 - scaleY))
                           0 0 1)

end Transform

/-- Class `sf::View`: the data members read and written by `View.inl` and
`View.cpp`; the values they have before a constructor body runs are a parameter of
the constructors. -/
structure View where
  m_center : Vector2f
  m_size : Vector2f
  m_rotation : Float32
  m_viewport : FloatRect
  m_transform : Transform
  m_inverseTransform : Transform
  m_transformUpdated : Bool
  m_invTransformUpdated : Bool
  deriving DecidableEq

namespace View

/-- Member `View::reset`. -/
def reset (self : binary32.View) (rectangle : FloatRect) : binary32.View :=
  { self with
    m_center := { x := rectangle.left + rectangle.width / 2,
                  y := rectangle.top + rectangle.height / 2 },
    m_size := { x := rectangle.width, y := rectangle.height },
    m_rotation := 0,
    m_transformUpdated := false,
    m_invTransformUpdated := false }

/-- Default constructor `View::View()`; `members` holds the data members as they are
when the constructor body starts. -/
def View0 (members : binary32.View) : binary32.View :=
  members.reset { left := 0, top := 0, width := 1000, height := 1000 }

/-- Data members as they may be when a constructor body starts: zero vectors, the
unit viewport, and identity caches marked valid. -/
def initialMembers : binary32.View :=
  { m_center := { x := 0, y := 0 },
    m_size := { x := 0, y := 0 },
    m_rotation := 0,
    m_viewport := { left := 0, top := 0, width := 1, height := 1 },
    m_transform := Transform.Identity,
    m_inverseTransform := Transform.Identity,
    m_transformUpdated := true,
    m_invTransformUpdated := true }

/-- Member `View::getTransform`: the returned transform and the view afterwards
(the cache members are `mutable`). The constant `Math::pi` is taken as a `float`
(`MathConstants.hpp` is not among the sources); for rotation 0 the angle is 0 in
any case. -/
def getTransform (T : Trig) (self : binary32.View) : binary32.Transform × binary32.View :=
  if !self.m_transformUpdated then
    let angle := self.m_rotation * T.pi / 180
    let cosine := T.cos angle
    let sine := T.sin angle
    let tx := -self.m_center.x * cosine - self.m_center.y * sine + self.m_center.x
    let ty := self.m_center.x * sine - self.m_center.y * cosine + self.m_center.y
    let a := 2 / self.m_size.x
    let b := -2 / self.m_size.y
    let c := -a * self.m_center.x
    let d := -b * self.m_center.y
    let m_transform := Transform.Transform9 (a * cosine) (a * sine) (a * tx + c)
                                            (-b * sine) (b * cosine) (b * ty + d)
                                            0 0 1
    (m_transform, { self with m_transform := m_transform, m_transformUpdated := true })
  else
    (self.m_transform, self)

end View

/-! ## Scalar overloads of the `Vector2` operators -/

/-- Binary `operator +(const Vector2<T>&, const Vector2<U>&)` of `Vector2.inl`, for
`float` components: the operands are read only and a new value is returned. -/
def Vector2f.opAdd (left right : Vector2f) : Vector2f :=
  { x := left.x + right.x, y := left.y + right.y }

/-- Binary `operator -(const Vector2<T>&, const Vector2<U>&)` of `Vector2.inl`, for
`float` components. -/
def Vector2f.opSub (left right : Vector2f) : Vector2f :=
  { x := left.x - right.x, y := left.y - right.y }

/-- The template `operator +(Vector2<T>& left, const U right)` that `Vector2.inl`
defines, for `T = float`: its two assignments `left.x += ..` and `left.y += ..` and
its `return left`; `right` is the value of `static_cast<T>(right)`. The result is the
left operand after the call together with the value designated by the returned
reference, which is that operand. -/
def Vector2f.opAddScalar (left : Vector2f) (right : Float32) : Vector2f × Vector2f :=
  let left1 : Vector2f := { left with x := left.x + right }
  let left2 : Vector2f := { left1 with y := left1.y + right }
  (left2, left2)

/-- The template `operator -(Vector2<T>& left, const U right)` that `Vector2.inl`
defines, for `T = float`; `right` is the value of `static_cast<T>(right)`. -/
def Vector2f.opSubScalar (left : Vector2f) (right : Float32) : Vector2f × Vector2f :=
  let left1 : Vector2f := { left with x := left.x - right }
  let left2 : Vector2f := { left1 with y := left1.y - right }
  (left2, left2)

/-- A scalar right operand of `v + s` or `v - s`, with its static type. -/
inductive Scalar where
  | ofFloat (value : Float32)
  | ofInt (value : ℤ)

/-- Conversion `static_cast<float>` of a scalar operand. -/
def Scalar.toFloat : Scalar → Float32
  | .ofFloat value => value
  | .ofInt value => Float32.ofRat value

/-- The two function templates that are candidates for `v + s` (and likewise for
`v - s`) with a `Vector2f` lvalue `v` and a scalar `s`: `declaredFloat` is
`template <typename T> Vector2<T>& operator +(Vector2<T>& left, const float right)`,
declared in `Vector2.hpp` and defined nowhere; `definedTemplate` is
`template <typename T, typename U> Vector2<T>& operator +(Vector2<T>& left, const U right)`,
defined in `Vector2.inl`. -/
inductive ScalarOverload where
  | declaredFloat
  | definedTemplate

/-- Overload resolution for `v + s` and `v - s`. For a `float` operand both templates
match without conversion and the one declared with `const float` is the more
specialised, so it is selected; for an `int` operand it would need a conversion and
the template with `const U` is an exact match. -/
def resolveScalarOverload : Scalar → ScalarOverload
  | .ofFloat _ => .declaredFloat
  | .ofInt _ => .definedTemplate

/-- The expression `v + s`: `none` when the selected function has no definition (the
program does not link), otherwise the operand afterwards and the returned value. -/
def Vector2f.addScalar (v : Vector2f) (s : Scalar) : Option (Vector2f × Vector2f) :=
  match resolveScalarOverload s with
  | .declaredFloat => none
  | .definedTemplate => some (v.opAddScalar s.toFloat)

/-- The expression `v - s`: `none` when the selected function has no definition,
otherwise the operand afterwards and the returned value. -/
def Vector2f.subScalar (v : Vector2f) (s : Scalar) : Option (Vector2f × Vector2f) :=
  match resolveScalarOverload s with
  | .declaredFloat => none
  | .definedTemplate => some (v.opSubScalar s.toFloat)

end binary32

namespace Transform

/-! ## Helper lemmas -/

/-- The local `det` of `getInverse` is the determinant of the embedded 3x3 matrix. -/
theorem det_eq_matrix_det (T : sf.Transform) : T.det = T.M.det := by
  simp only [det, M, Matrix.det_fin_three, Matrix.of_apply, Matrix.cons_val_zero,
    Matrix.cons_val_one, Matrix.head_cons, Matrix.cons_val_two, Matrix.tail_cons]
  ring

/-- The embedded matrix of a combination is the product of the embedded matrices. -/
theorem M_combine (A B : sf.Transform) : (A.combine B).M = A.M * B.M := by
  ext i j
  fin_cases i <;> fin_cases j <;>
    simp [combine, Transform9, M, Matrix.mul_apply, Fin.sum_univ_three]

/-- The embedded matrix of `Identity` is the unit matrix. -/
theorem M_Identity : Identity.M = 1 := by
  ext i j
  fin_cases i <;> fin_cases j <;> simp [Identity, Transform0, M, Matrix.vecHead, Matrix.vecTail]

/-- The library equality holds exactly when the embedded matrices agree. -/
theorem opEq_iff_M (L R : sf.Transform) : opEq L R = true ↔ L.M = R.M := by
  constructor
  · intro h
    simp only [opEq, getMatrix, Bool.and_eq_true, decide_eq_true_eq] at h
    obtain ⟨⟨⟨⟨⟨⟨⟨⟨h0, h1⟩, h3⟩, h4⟩, h5⟩, h7⟩, h12⟩, h13⟩, h15⟩ := h
    simp only [M, h0, h1, h3, h4, h5, h7, h12, h13, h15]
  · intro h
    have e : ∀ i j, L.M i j = R.M i j := fun i j => by rw [h]
    have e00 := e 0 0
    have e01 := e 0 1
    have e02 := e 0 2
    have e10 := e 1 0
    have e11 := e 1 1
    have e12 := e 1 2
    have e20 := e 2 0
    have e21 := e 2 1
    have e22 := e 2 2
    simp [M] at e00 e01 e02 e10 e11 e12 e20 e21 e22
    simp [opEq, getMatrix, e00, e01, e02, e10, e11, e12, e20, e21, e22]

/-- With a non-zero determinant, the computed inverse is a right inverse of the
embedded matrix. -/
theorem M_mul_M_getInverse (T : sf.Transform) (h : T.det ≠ 0) :
    T.M * T.getInverse.M = 1 := by
  have hd : T.m_matrix.m0 * (T.m_matrix.m15 * T.m_matrix.m5 - T.m_matrix.m7 * T.m_matrix.m13) -
      T.m_matrix.m1 * (T.m_matrix.m15 * T.m_matrix.m4 - T.m_matrix.m7 * T.m_matrix.m12) +
      T.m_matrix.m3 * (T.m_matrix.m13 * T.m_matrix.m4 - T.m_matrix.m5 * T.m_matrix.m12) ≠ 0 := h
  ext i j
  fin_cases i <;> fin_cases j <;>
    simp [getInverse, h, Transform9, M, Matrix.mul_apply, Fin.sum_univ_three] <;>
    simp only [det] <;> field_simp <;> ring

/-! ## Combination, identity and inverse -/

/-- C1: for all transforms `A` and `B`, the nine meaningful coefficients of
`A.combine(B)` form the 3x3 matrix product `M(A) * M(B)`, in that order. The value
of `combine` is both the new receiver and what the returned reference designates. -/
theorem combine_is_matrix_product (A B : sf.Transform) :
    (A.combine B).M = A.M * B.M :=
  M_combine A B

/-- C2: in exact arithmetic, `T.combine(Identity) == T` and
`Identity.combine(T) == T` for every transform `T`, with `==` the library's
equality on transforms. -/
theorem combine_Identity_opEq (T : sf.Transform) :
    opEq (T.combine Identity) T = true ∧ opEq (Identity.combine T) T = true := by
  constructor
  · rw [opEq_iff_M, M_combine, M_Identity, mul_one]
  · rw [opEq_iff_M, M_combine, M_Identity, one_mul]

/-- C3: in exact arithmetic, whenever the determinant computed by `getInverse` is
non-zero, `T.combine(T.getInverse())` has the nine coefficients of `Identity`. -/
theorem combine_getInverse_opEq_Identity (T : sf.Transform) (h : T.det ≠ 0) :
    opEq (T.combine T.getInverse) Identity = true := by
  rw [opEq_iff_M, M_combine, M_mul_M_getInverse T h, M_Identity]

/-- C3 at the transform with coefficients `(2,1,3, 0,1,5, 0,0,1)`, of determinant 2. -/
theorem combine_getInverse_opEq_Identity_witness :
    (Transform9 2 1 3 0 1 5 0 0 1).det ≠ 0 ∧
      opEq ((Transform9 2 1 3 0 1 5 0 0 1).combine (Transform9 2 1 3 0 1 5 0 0 1).getInverse)
        Identity = true :=
  ⟨by norm_num [det, Transform9],
   combine_getInverse_opEq_Identity (Transform9 2 1 3 0 1 5 0 0 1)
     (by norm_num [det, Transform9])⟩

/-- C5: `Transform(a00, ..., a22).getMatrix()` has `m[0]=a00`, `m[4]=a01`,
`m[12]=a02`, `m[1]=a10`, `m[5]=a11`, `m[13]=a12`, `m[3]=a20`, `m[7]=a21`,
`m[15]=a22`, `m[10]=1`, and zero at indices 2, 6, 8, 9, 11 and 14. -/
theorem Transform9_getMatrix (a00 a01 a02 a10 a11 a12 a20 a21 a22 : ℚ) :
    (Transform9 a00 a01 a02 a10 a11 a12 a20 a21 a22).getMatrix.m0 = a00 ∧
    (Transform9 a00 a01 a02 a10 a11 a12 a20 a21 a22).getMatrix.m4 = a01 ∧
    (Transform9 a00 a01 a02 a10 a11 a12 a20 a21 a22).getMatrix.m12 = a02 ∧
    (Transform9 a00 a01 a02 a10 a11 a12 a20 a21 a22).getMatrix.m1 = a10 ∧
    (Transform9 a00 a01 a02 a10 a11 a12 a20 a21 a22).getMatrix.m5 = a11 ∧
    (Transform9 a00 a01 a02 a10 a11 a12 a20 a21 a22).getMatrix.m13 = a12 ∧
    (Transform9 a00 a01 a02 a10 a11 a12 a20 a21 a22).getMatrix.m3 = a20 ∧
    (Transform9 a00 a01 a02 a10 a11 a12 a20 a21 a22).getMatrix.m7 = a21 ∧
    (Transform9 a00 a01 a02 a10 a11 a12 a20 a21 a22).getMatrix.m15 = a22 ∧
    (Transform9 a00 a01 a02 a10 a11 a12 a20 a21 a22).getMatrix.m10 = 1 ∧
    (Transform9 a00 a01 a02 a10 a11 a12 a20 a21 a22).getMatrix.m2 = 0 ∧
    (Transform9 a00 a01 a02 a10 a11 a12 a20 a21 a22).getMatrix.m6 = 0 ∧
    (Transform9 a00 a01 a02 a10 a11 a12 a20 a21 a22).getMatrix.m8 = 0 ∧
    (Transform9 a00 a01 a02 a10 a11 a12 a20 a21 a22).getMatrix.m9 = 0 ∧
    (Transform9 a00 a01 a02 a10 a11 a12 a20 a21 a22).getMatrix.m11 = 0 ∧
    (Transform9 a00 a01 a02 a10 a11 a12 a20 a21 a22).getMatrix.m14 = 0 := by
  simp [Transform9, getMatrix]

/-! ## Points and rectangles -/

/-- Transforming by a combination is transforming by the argument and then by the
receiver, provided the argument is affine. -/
theorem transformPointV_combine_of_affine (A B : sf.Transform) (hB : IsAffine B)
    (p : Vector2f) :
    (A.combine B).transformPointV p = A.transformPointV (B.transformPointV p) := by
  obtain ⟨h3, h7, h15⟩ := hB
  simp only [transformPointV, transformPoint, combine, Transform9, h3, h7, h15,
    Vector2f.mk.injEq]
  constructor <;> ring

/-- One pass of the loop of `transformRect` extends the interval `[left, right]` to
hold `p.x` and `[top, bottom]` to hold `p.y`, when both start non-empty. -/
theorem transformRectStep_eq (b : Bounds) (p : Vector2f) (hx : b.left ≤ b.right)
    (hy : b.top ≤ b.bottom) :
    transformRectStep b p =
      { left := min b.left p.x, top := min b.top p.y,
        right := max b.right p.x, bottom := max b.bottom p.y } := by
  unfold transformRectStep
  by_cases h1 : p.x < b.left <;> by_cases h2 : p.x > b.right <;>
    by_cases h3 : p.y < b.top <;> by_cases h4 : p.y > b.bottom <;>
    simp only [h1, h2, h3, h4, if_true, if_false] <;>
    ext <;> simp only [] <;>
    first
      | (symm; apply min_eq_left; linarith)
      | (symm; apply min_eq_right; linarith)
      | (symm; apply max_eq_left; linarith)
      | (symm; apply max_eq_right; linarith)


/-- The rectangle returned by `transformRect`, in closed form over the four
transformed corners. -/
theorem transformRect_eq (T : sf.Transform) (R : FloatRect) :
    T.transformRect R =
      { left := min (min (min (T.transformPoint R.left R.top).x
            (T.transformPoint R.left (R.top + R.height)).x)
            (T.transformPoint (R.left + R.width) R.top).x)
            (T.transformPoint (R.left + R.width) (R.top + R.height)).x,
        top := min (min (min (T.transformPoint R.left R.top).y
            (T.transformPoint R.left (R.top + R.height)).y)
            (T.transformPoint (R.left + R.width) R.top).y)
            (T.transformPoint (R.left + R.width) (R.top + R.height)).y,
        width := max (max (max (T.transformPoint R.left R.top).x
            (T.transformPoint R.left (R.top + R.height)).x)
            (T.transformPoint (R.left + R.width) R.top).x)
            (T.transformPoint (R.left + R.width) (R.top + R.height)).x -
          min (min (min (T.transformPoint R.left R.top).x
            (T.transformPoint R.left (R.top + R.height)).x)
            (T.transformPoint (R.left + R.width) R.top).x)
            (T.transformPoint (R.left + R.width) (R.top + R.height)).x,
        height := max (max (max (T.transformPoint R.left R.top).y
            (T.transformPoint R.left (R.top + R.height)).y)
            (T.transformPoint (R.left + R.width) R.top).y)
            (T.transformPoint (R.left + R.width) (R.top + R.height)).y -
          min (min (min (T.transformPoint R.left R.top).y
            (T.transformPoint R.left (R.top + R.height)).y)
            (T.transformPoint (R.left + R.width) R.top).y)
            (T.transformPoint (R.left + R.width) (R.top + R.height)).y } := by
  simp only [transformRect, transformRectPoints, List.drop, List.foldl]
  rw [transformRectStep_eq ⟨_, _, _, _⟩ _ le_rfl le_rfl]
  rw [transformRectStep_eq ⟨_, _, _, _⟩ _ min_le_max min_le_max]
  rw [transformRectStep_eq ⟨_, _, _, _⟩ _
    (le_trans (min_le_left _ _) (le_trans min_le_max (le_max_left _ _)))
    (le_trans (min_le_left _ _) (le_trans min_le_max (le_max_left _ _)))]

/-- Under `Identity` a point is left where it is. -/
theorem transformPoint_Identity (x y : ℚ) : Identity.transformPoint x y = { x := x, y := y } := by
  simp [transformPoint, Identity, Transform0]

/-- Under `Identity`, `transformRect` normalises the rectangle: negative extents
are turned into positive ones. -/
theorem transformRect_Identity (R : FloatRect) :
    Identity.transformRect R =
      { left := min R.left (R.left + R.width), top := min R.top (R.top + R.height),
        width := |R.width|, height := |R.height| } := by
  rw [transformRect_eq]
  simp only [transformPoint_Identity, FloatRect.mk.injEq]
  refine ⟨?_, ?_, ?_, ?_⟩
  · rcases le_total 0 R.width with h | h
    · simp [h]
    · simp [h]
  · rcases le_total 0 R.height with h | h
    · simp [h]
    · simp [h]
  · rcases le_total 0 R.width with h | h
    · simp [h, abs_of_nonneg]
    · simp [h, abs_of_nonpos]
  · rcases le_total 0 R.height with h | h
    · simp [h, abs_of_nonneg]
    · simp [h, abs_of_nonpos]


/-- The rotation about a center is the chain `translate(c).rotate(angle).translate(-c)`,
written with the scalar overloads. -/
theorem rotateCenter_eq_chain (T : Trig) (t : sf.Transform) (angle centerX centerY : ℚ) :
    t.rotateCenter T angle centerX centerY =
      ((t.translate centerX centerY).rotate T angle).translate (-centerX) (-centerY) := by
  simp only [rotateCenter, rotate, translate, combine, Transform9, Transform.mk.injEq,
    Matrix4x4.mk.injEq]
  refine ⟨?_, ?_, ?_, ?_, ?_, ?_, ?_, ?_, ?_, ?_, ?_, ?_, ?_, ?_, ?_, ?_⟩ <;>
    first | trivial | ring

/-- On `Identity` and for the center `(1, 0)`, the rotation about the center and the
chain `translate(-c).rotate(angle).translate(c)` differ as soon as the cosine used is
not 1. -/
theorem rotateCenter_ne_doc_chain (T : Trig) (angle : ℚ) (h : T.cos (angle * T.pi / 180) ≠ 1) :
    Identity.rotateCenter T angle 1 0 ≠
      ((Identity.translate (-1) (-0)).rotate T angle).translate 1 0 := by
  intro e
  have e12 := congrArg (fun t : sf.Transform => t.m_matrix.m12) e
  simp only [rotateCenter, rotate, translate, combine, Transform9, Identity, Transform0] at e12
  apply h
  linarith

/-! ## Claims on points, rectangles and rotations -/

/-- C6, as stated, fails: with `A = Transform(1,0,1, 0,1,0, 0,0,1)` and the
non-affine `B = Transform(1,0,0, 0,1,0, 0,0,2)`, the combination sends `(0,0)` to
`(2,0)` while applying `B` and then `A` gives `(1,0)`. -/
theorem combine_transformPoint_counterexample :
    ((Transform9 1 0 1 0 1 0 0 0 1).combine (Transform9 1 0 0 0 1 0 0 0 2)).transformPointV
        { x := 0, y := 0 } = { x := 2, y := 0 } ∧
      (Transform9 1 0 1 0 1 0 0 0 1).transformPointV
        ((Transform9 1 0 0 0 1 0 0 0 2).transformPointV { x := 0, y := 0 }) =
          { x := 1, y := 0 } ∧
      ((Transform9 1 0 1 0 1 0 0 0 1).combine (Transform9 1 0 0 0 1 0 0 0 2)).transformPointV
        { x := 0, y := 0 } ≠
      (Transform9 1 0 1 0 1 0 0 0 1).transformPointV
        ((Transform9 1 0 0 0 1 0 0 0 2).transformPointV { x := 0, y := 0 }) := by
  refine ⟨?_, ?_, ?_⟩ <;>
    norm_num [combine, Transform9, transformPointV, transformPoint]

/-- C6, amended: for every transform `A`, every affine transform `B` (entries 3 and 7
zero, entry 15 one) and every point `p`, `A.combine(B).transformPoint(p)` equals
`A.transformPoint(B.transformPoint(p))`, in exact arithmetic. -/
theorem combine_transformPoint_affine (A B : sf.Transform) (hB : IsAffine B) (p : Vector2f) :
    (A.combine B).transformPointV p = A.transformPointV (B.transformPointV p) :=
  transformPointV_combine_of_affine A B hB p

/-- C6 amended, at `A = Transform(1,0,1, 0,1,0, 0,0,2)`, the translation
`B = Transform(1,0,3, 0,1,4, 0,0,1)` and the point `(5,6)`. -/
theorem combine_transformPoint_affine_witness :
    IsAffine (Transform9 1 0 3 0 1 4 0 0 1) ∧
      ((Transform9 1 0 1 0 1 0 0 0 2).combine (Transform9 1 0 3 0 1 4 0 0 1)).transformPointV
          { x := 5, y := 6 } =
        (Transform9 1 0 1 0 1 0 0 0 2).transformPointV
          ((Transform9 1 0 3 0 1 4 0 0 1).transformPointV { x := 5, y := 6 }) :=
  ⟨by simp [IsAffine, Transform9],
   combine_transformPoint_affine (Transform9 1 0 1 0 1 0 0 0 2) (Transform9 1 0 3 0 1 4 0 0 1)
     (by simp [IsAffine, Transform9]) { x := 5, y := 6 }⟩

/-- C7, amended: in exact arithmetic, `T.transformRect(R)` is the tightest axis-aligned
rectangle around the four transformed corners of `R`: `left` is the least and
`left + width` the greatest of their `x` values, `top` the least and `top + height`
the greatest of their `y` values; so each transformed corner lies inside it and
`width`, `height` are non-negative. -/
theorem transformRect_is_bounding_box (T : sf.Transform) (R : FloatRect) :
    (T.transformRect R).left =
        min (min (min (T.transformPoint R.left R.top).x
          (T.transformPoint R.left (R.top + R.height)).x)
          (T.transformPoint (R.left + R.width) R.top).x)
          (T.transformPoint (R.left + R.width) (R.top + R.height)).x ∧
      (T.transformRect R).left + (T.transformRect R).width =
        max (max (max (T.transformPoint R.left R.top).x
          (T.transformPoint R.left (R.top + R.height)).x)
          (T.transformPoint (R.left + R.width) R.top).x)
          (T.transformPoint (R.left + R.width) (R.top + R.height)).x ∧
      (T.transformRect R).top =
        min (min (min (T.transformPoint R.left R.top).y
          (T.transformPoint R.left (R.top + R.height)).y)
          (T.transformPoint (R.left + R.width) R.top).y)
          (T.transformPoint (R.left + R.width) (R.top + R.height)).y ∧
      (T.transformRect R).top + (T.transformRect R).height =
        max (max (max (T.transformPoint R.left R.top).y
          (T.transformPoint R.left (R.top + R.height)).y)
          (T.transformPoint (R.left + R.width) R.top).y)
          (T.transformPoint (R.left + R.width) (R.top + R.height)).y ∧
      (∀ p ∈ [T.transformPoint R.left R.top,
              T.transformPoint R.left (R.top + R.height),
              T.transformPoint (R.left + R.width) R.top,
              T.transformPoint (R.left + R.width) (R.top + R.height)],
        (T.transformRect R).left ≤ p.x ∧
          p.x ≤ (T.transformRect R).left + (T.transformRect R).width ∧
          (T.transformRect R).top ≤ p.y ∧
          p.y ≤ (T.transformRect R).top + (T.transformRect R).height) ∧
      0 ≤ (T.transformRect R).width ∧ 0 ≤ (T.transformRect R).height := by
  rw [transformRect_eq]
  refine ⟨rfl, by simp, rfl, by simp, ?_, ?_, ?_⟩
  · intro p hp
    simp only [List.mem_cons, List.mem_singleton, List.not_mem_nil, or_false] at hp
    rcases hp with rfl | rfl | rfl | rfl <;> simp
  · simp only [sub_nonneg]
    exact le_trans (min_le_left _ _) (le_trans (min_le_left _ _)
      (le_trans min_le_max (le_trans (le_max_left _ _) (le_max_left _ _))))
  · simp only [sub_nonneg]
    exact le_trans (min_le_left _ _) (le_trans (min_le_left _ _)
      (le_trans min_le_max (le_trans (le_max_left _ _) (le_max_left _ _))))

/-- A negative width is normalised in exact arithmetic too: the rectangle
`(0, 0, -1, 1)` is turned by `Identity.transformRect` into `(-1, 0, 1, 1)`. -/
theorem transformRect_Identity_counterexample :
    Identity.transformRect { left := 0, top := 0, width := -1, height := 1 } =
        { left := -1, top := 0, width := 1, height := 1 } ∧
      Identity.transformRect { left := 0, top := 0, width := -1, height := 1 } ≠
        { left := 0, top := 0, width := -1, height := 1 } := by
  rw [transformRect_Identity]
  norm_num

/-- C8, amended: in exact arithmetic, `Identity.transformRect(R)` equals `R` field
for field exactly for the rectangles `R` whose width and height are both
non-negative. -/
theorem transformRect_Identity_iff (R : FloatRect) :
    Identity.transformRect R = R ↔ 0 ≤ R.width ∧ 0 ≤ R.height := by
  rw [transformRect_Identity]
  constructor
  · intro h
    have hw := congrArg FloatRect.width h
    have hh := congrArg FloatRect.height h
    simp only at hw hh
    exact ⟨hw ▸ abs_nonneg _, hh ▸ abs_nonneg _⟩
  · rintro ⟨hw, hh⟩
    obtain ⟨l, t, w, h⟩ := R
    simp only at hw hh
    simp [hw, hh, abs_of_nonneg]

/-- C8 amended, at the rectangle `(1, 2, 3, 4)` and the empty rectangle `(1, 2, 0, 0)`. -/
theorem transformRect_Identity_iff_witness :
    Identity.transformRect { left := 1, top := 2, width := 3, height := 4 } =
        { left := 1, top := 2, width := 3, height := 4 } ∧
      Identity.transformRect { left := 1, top := 2, width := 0, height := 0 } =
        { left := 1, top := 2, width := 0, height := 0 } :=
  ⟨(transformRect_Identity_iff _).mpr ⟨by norm_num, by norm_num⟩,
   (transformRect_Identity_iff _).mpr ⟨by norm_num, by norm_num⟩⟩

/-- C9, amended: for every angle, every center `(cx, cy)` and whatever values the cosine and
sine take, the transform obtained by `rotate(angle, cx, cy)` on an identity transform
maps `(cx, cy)` to `(cx, cy)`, in exact arithmetic. -/
theorem rotateCenter_fixes_center (T : Trig) (angle cx cy : ℚ) :
    (Identity.rotateCenter T angle cx cy).transformPoint cx cy = { x := cx, y := cy } := by
  simp only [rotateCenter, combine, Transform9, Identity, Transform0, transformPoint,
    Vector2f.mk.injEq]
  constructor <;> ring

/-- C10, as stated, fails: for a half turn (cosine -1, sine 0) about `c = (1, 0)` on
an identity transform, `rotate(angle, c)` has translation `(2, 0)` while
`translate(-c).rotate(angle).translate(c)` has translation `(-2, 0)`. -/
theorem rotateCenter_doc_chain_counterexample :
    (Identity.rotateCenterV ⟨22 / 7, fun _ => -1, fun _ => 0⟩ 180
          { x := 1, y := 0 }).transformPoint 0 0 = { x := 2, y := 0 } ∧
      (((Identity.translateV (Vector2f.opNeg { x := 1, y := 0 })).rotate
          ⟨22 / 7, fun _ => -1, fun _ => 0⟩ 180).translateV
            { x := 1, y := 0 }).transformPoint 0 0 = { x := -2, y := 0 } ∧
      Identity.rotateCenterV ⟨22 / 7, fun _ => -1, fun _ => 0⟩ 180 { x := 1, y := 0 } ≠
        ((Identity.translateV (Vector2f.opNeg { x := 1, y := 0 })).rotate
          ⟨22 / 7, fun _ => -1, fun _ => 0⟩ 180).translateV { x := 1, y := 0 } := by
  refine ⟨?_, ?_, ?_⟩ <;>
    norm_num [rotateCenterV, rotateCenter, translateV, translate, rotate, combine, Transform9,
      Identity, Transform0, transformPoint, Vector2f.opNeg]

/-- C10, amended: for every angle, every center `c` and every starting transform,
`rotate(angle, c)` gives the same transform as the chained calls
`translate(c).rotate(angle).translate(-c)`, in exact arithmetic with the same cosine
and sine. -/
theorem rotateCenterV_eq_chain (T : Trig) (t : sf.Transform) (angle : ℚ) (c : Vector2f) :
    t.rotateCenterV T angle c =
      ((t.translateV c).rotate T angle).translateV (Vector2f.opNeg c) :=
  rotateCenter_eq_chain T t angle c.x c.y


/-! ## Truncation -/

/-- Truncation never increases the magnitude. -/
theorem abs_truncToZero_le (v : ℚ) : |(truncToZero v : ℚ)| ≤ |v| := by
  unfold truncToZero
  split_ifs with h
  · have h0 : (0 : ℤ) ≤ ⌊v⌋ := Int.floor_nonneg.mpr h
    have h1 : ((⌊v⌋ : ℤ) : ℚ) ≤ v := Int.floor_le v
    have h2 : (0 : ℚ) ≤ ((⌊v⌋ : ℤ) : ℚ) := by exact_mod_cast h0
    rw [abs_of_nonneg h2, abs_of_nonneg h]
    exact h1
  · have hv : v ≤ 0 := le_of_lt (not_le.mp h)
    have h0 : ⌈v⌉ ≤ (0 : ℤ) := Int.ceil_le.mpr (by exact_mod_cast hv)
    have h1 : v ≤ ((⌈v⌉ : ℤ) : ℚ) := Int.le_ceil v
    have h2 : ((⌈v⌉ : ℤ) : ℚ) ≤ 0 := by exact_mod_cast h0
    rw [abs_of_nonpos h2, abs_of_nonpos hv]
    linarith

/-- Truncation moves a value by less than one. -/
theorem abs_sub_truncToZero_lt (v : ℚ) : |v - (truncToZero v : ℚ)| < 1 := by
  unfold truncToZero
  split_ifs with h
  · have h1 : ((⌊v⌋ : ℤ) : ℚ) ≤ v := Int.floor_le v
    have h2 : v < ((⌊v⌋ : ℤ) : ℚ) + 1 := Int.lt_floor_add_one v
    rw [abs_lt]
    constructor <;> linarith
  · have h1 : v ≤ ((⌈v⌉ : ℤ) : ℚ) := Int.le_ceil v
    have h2 : ((⌈v⌉ : ℤ) : ℚ) < v + 1 := Int.ceil_lt_add_one v
    rw [abs_lt]
    constructor <;> linarith

/-- The conversion to `int` is defined exactly on the open interval
`(-2^31 - 1, 2^31)`, where it is the truncation toward zero. -/
theorem static_cast_int_eq_some_iff (v : ℚ) :
    static_cast_int v = some (truncToZero v) ↔ -2 ^ 31 - 1 < v ∧ v < 2 ^ 31 := by
  have key : (-2 ^ 31 ≤ truncToZero v ∧ truncToZero v ≤ 2 ^ 31 - 1) ↔
      (-2 ^ 31 - 1 < v ∧ v < 2 ^ 31) := by
    unfold truncToZero
    split_ifs with h
    · have h0 : (0 : ℤ) ≤ ⌊v⌋ := Int.floor_nonneg.mpr h
      have e : ⌊v⌋ ≤ (2 ^ 31 - 1 : ℤ) ↔ v < 2 ^ 31 := by
        rw [show ⌊v⌋ ≤ (2 ^ 31 - 1 : ℤ) ↔ ⌊v⌋ < (2 ^ 31 : ℤ) by omega, Int.floor_lt]
        norm_num
      constructor
      · rintro ⟨_, hb⟩
        exact ⟨by linarith, e.mp hb⟩
      · rintro ⟨_, hb⟩
        exact ⟨by omega, e.mpr hb⟩
    · have hv : v < 0 := not_le.mp h
      have h0 : ⌈v⌉ ≤ (0 : ℤ) := Int.ceil_le.mpr (by exact_mod_cast le_of_lt hv)
      have e : (-2 ^ 31 : ℤ) ≤ ⌈v⌉ ↔ -2 ^ 31 - 1 < v := by
        rw [show (-2 ^ 31 : ℤ) ≤ ⌈v⌉ ↔ (-2 ^ 31 - 1 : ℤ) < ⌈v⌉ by omega, Int.lt_ceil]
        norm_num
      constructor
      · rintro ⟨ha, _⟩
        exact ⟨e.mp ha, by linarith⟩
      · rintro ⟨ha, _⟩
        exact ⟨e.mpr ha, by omega⟩
  unfold static_cast_int
  split_ifs with h
  · simp only [true_iff]
    exact key.mp h
  · simp only [false_iff, reduceCtorEq]
    exact fun h2 => h (key.mpr h2)

/-- Outside the open interval `(-2^31 - 1, 2^31)` the conversion to `int` is undefined. -/
theorem static_cast_int_eq_none_iff (v : ℚ) :
    static_cast_int v = none ↔ ¬ (-2 ^ 31 - 1 < v ∧ v < 2 ^ 31) := by
  rw [← static_cast_int_eq_some_iff]
  unfold static_cast_int
  split_ifs with h <;> simp

/-! ## Pixel snapping and the fixed entries -/

/-- Where both conversions to `int` are defined, `floorTranslation` is the receiver
with entries 12 and 13 truncated. -/
theorem floorTranslation_eq_some (t : sf.Transform)
    (h12 : -2 ^ 31 - 1 < t.m_matrix.m12 ∧ t.m_matrix.m12 < 2 ^ 31)
    (h13 : -2 ^ 31 - 1 < t.m_matrix.m13 ∧ t.m_matrix.m13 < 2 ^ 31) :
    t.floorTranslation =
      some { m_matrix := { t.m_matrix with
        m12 := (truncToZero t.m_matrix.m12 : ℚ), m13 := (truncToZero t.m_matrix.m13 : ℚ) } } := by
  unfold floorTranslation
  rw [(static_cast_int_eq_some_iff _).mpr h12, (static_cast_int_eq_some_iff _).mpr h13]

/-- A defined `floorTranslation` changes entries 12 and 13 only. -/
theorem floorTranslation_frame (t r : sf.Transform) (h : t.floorTranslation = some r) :
    r.m_matrix.m0 = t.m_matrix.m0 ∧ r.m_matrix.m1 = t.m_matrix.m1 ∧
    r.m_matrix.m2 = t.m_matrix.m2 ∧ r.m_matrix.m3 = t.m_matrix.m3 ∧
    r.m_matrix.m4 = t.m_matrix.m4 ∧ r.m_matrix.m5 = t.m_matrix.m5 ∧
    r.m_matrix.m6 = t.m_matrix.m6 ∧ r.m_matrix.m7 = t.m_matrix.m7 ∧
    r.m_matrix.m8 = t.m_matrix.m8 ∧ r.m_matrix.m9 = t.m_matrix.m9 ∧
    r.m_matrix.m10 = t.m_matrix.m10 ∧ r.m_matrix.m11 = t.m_matrix.m11 ∧
    r.m_matrix.m14 = t.m_matrix.m14 ∧ r.m_matrix.m15 = t.m_matrix.m15 := by
  unfold floorTranslation at h
  cases h12 : static_cast_int t.m_matrix.m12 with
  | none => simp [h12] at h
  | some i12 =>
    cases h13 : static_cast_int t.m_matrix.m13 with
    | none => simp [h12, h13] at h
    | some i13 =>
      simp only [h12, h13, Option.some.injEq] at h
      subst h
      simp

/-- The nine-coefficient constructor sets the seven fixed entries. -/
theorem FixedEntries_Transform9 (a00 a01 a02 a10 a11 a12 a20 a21 a22 : ℚ) :
    FixedEntries (Transform9 a00 a01 a02 a10 a11 a12 a20 a21 a22) := by
  simp [FixedEntries, getMatrix, Transform9]

/-- Every combination has the seven fixed entries, whatever the operands hold. -/
theorem FixedEntries_combine (a b : sf.Transform) : FixedEntries (a.combine b) :=
  FixedEntries_Transform9 _ _ _ _ _ _ _ _ _

/-- Every inverse has the seven fixed entries, whatever the receiver holds. -/
theorem FixedEntries_getInverse (t : sf.Transform) : FixedEntries t.getInverse := by
  simp only [getInverse]
  split_ifs
  · exact FixedEntries_Transform9 _ _ _ _ _ _ _ _ _
  · simp [FixedEntries, getMatrix, Identity, Transform0]

/-- One mutating call keeps the seven fixed entries. -/
theorem FixedEntries_apply (T : Trig) (op : Op) (s t : sf.Transform)
    (h : op.apply T s = some t) (hs : FixedEntries s) : FixedEntries t := by
  cases op with
  | floorTranslation =>
    obtain ⟨_, _, h2, _, _, _, h6, _, h8, h9, h10, h11, h14, _⟩ := floorTranslation_frame s t h
    simp only [FixedEntries, getMatrix] at hs ⊢
    rw [h2, h6, h8, h9, h10, h11, h14]
    exact hs
  | _ =>
    simp only [Op.apply, Option.some.injEq] at h
    subst h
    exact FixedEntries_combine _ _

/-- A sequence of mutating calls keeps the seven fixed entries. -/
theorem FixedEntries_runOps (T : Trig) (ops : List Op) (s t : sf.Transform)
    (h : runOps T ops s = some t) (hs : FixedEntries s) : FixedEntries t := by
  induction ops generalizing s with
  | nil =>
    simp only [runOps, Option.some.injEq] at h
    exact h ▸ hs
  | cons op rest ih =>
    unfold runOps at h
    cases hop : op.apply T s with
    | none => simp [hop] at h
    | some next =>
      simp only [hop] at h
      exact ih next h (FixedEntries_apply T op s next hop hs)

/-- The inverse of an affine transform with non-zero determinant is affine. -/
theorem IsAffine_getInverse (t : sf.Transform) (ht : IsAffine t) (hdet : t.det ≠ 0) :
    IsAffine t.getInverse := by
  obtain ⟨h3, h7, h15⟩ := ht
  have hd : t.det = t.m_matrix.m5 * t.m_matrix.m0 - t.m_matrix.m1 * t.m_matrix.m4 := by
    simp only [det, h3, h7, h15]
    ring
  have hd2 : t.m_matrix.m5 * t.m_matrix.m0 - t.m_matrix.m1 * t.m_matrix.m4 ≠ 0 := hd ▸ hdet
  simp only [IsAffine, getInverse, hdet, ne_eq, not_false_eq_true, if_true, Transform9, h3, h7]
  refine ⟨by simp, by simp, ?_⟩
  rw [hd]
  exact div_self hd2

/-- Transforming by a transform whose embedded matrix is the unit matrix leaves a
point where it is. -/
theorem transformPointV_of_M_eq_one (t : sf.Transform) (h : t.M = 1) (p : Vector2f) :
    t.transformPointV p = p := by
  have e00 := congrFun (congrFun h 0) 0
  have e01 := congrFun (congrFun h 0) 1
  have e02 := congrFun (congrFun h 0) 2
  have e10 := congrFun (congrFun h 1) 0
  have e11 := congrFun (congrFun h 1) 1
  have e12 := congrFun (congrFun h 1) 2
  simp [M] at e00 e01 e02 e10 e11 e12
  simp [transformPointV, transformPoint, e00, e01, e02, e10, e11, e12]

/-! ## Claims on chained calls, pixel snapping, equality and the embedding -/

/-- C12, as stated, fails: `floorTranslation` is not defined for every translation
value. After `Transform().translate(2147483648, 0)` the x translation is `2^31`, which
`static_cast<int>` cannot represent. -/
theorem floorTranslation_undefined_counterexample :
    (Transform0.translate 2147483648 0).m_matrix.m12 = 2 ^ 31 ∧
      (Transform0.translate 2147483648 0).floorTranslation = none := by
  have e : (Transform0.translate 2147483648 0).m_matrix.m12 = 2 ^ 31 := by
    norm_num [translate, combine, Transform9, Transform0]
  refine ⟨e, ?_⟩
  have h : static_cast_int (Transform0.translate 2147483648 0).m_matrix.m12 = none := by
    rw [static_cast_int_eq_none_iff, e]
    norm_num
  simp only [floorTranslation, h]

/-- C12, amended: for every transform whose entries 12 and 13 lie strictly between
`-2^31 - 1` and `2^31` (their truncations fit a 32-bit `int`), `floorTranslation()` is
defined and replaces entries 12 and 13 by their values truncated toward zero (the
integer of no larger magnitude at distance less than one), leaving the other
fourteen entries unchanged. -/
theorem floorTranslation_truncates (t : sf.Transform)
    (h12 : -2 ^ 31 - 1 < t.m_matrix.m12 ∧ t.m_matrix.m12 < 2 ^ 31)
    (h13 : -2 ^ 31 - 1 < t.m_matrix.m13 ∧ t.m_matrix.m13 < 2 ^ 31) :
    ∃ r : sf.Transform, t.floorTranslation = some r ∧
      ((∃ n : ℤ, r.m_matrix.m12 = (n : ℚ)) ∧ |r.m_matrix.m12| ≤ |t.m_matrix.m12| ∧
        |t.m_matrix.m12 - r.m_matrix.m12| < 1) ∧
      ((∃ n : ℤ, r.m_matrix.m13 = (n : ℚ)) ∧ |r.m_matrix.m13| ≤ |t.m_matrix.m13| ∧
        |t.m_matrix.m13 - r.m_matrix.m13| < 1) ∧
      r.m_matrix.m0 = t.m_matrix.m0 ∧ r.m_matrix.m1 = t.m_matrix.m1 ∧
      r.m_matrix.m2 = t.m_matrix.m2 ∧ r.m_matrix.m3 = t.m_matrix.m3 ∧
      r.m_matrix.m4 = t.m_matrix.m4 ∧ r.m_matrix.m5 = t.m_matrix.m5 ∧
      r.m_matrix.m6 = t.m_matrix.m6 ∧ r.m_matrix.m7 = t.m_matrix.m7 ∧
      r.m_matrix.m8 = t.m_matrix.m8 ∧ r.m_matrix.m9 = t.m_matrix.m9 ∧
      r.m_matrix.m10 = t.m_matrix.m10 ∧ r.m_matrix.m11 = t.m_matrix.m11 ∧
      r.m_matrix.m14 = t.m_matrix.m14 ∧ r.m_matrix.m15 = t.m_matrix.m15 := by
  refine ⟨_, floorTranslation_eq_some t h12 h13, ?_, ?_, ?_⟩
  · exact ⟨⟨_, rfl⟩, abs_truncToZero_le _, abs_sub_truncToZero_lt _⟩
  · exact ⟨⟨_, rfl⟩, abs_truncToZero_le _, abs_sub_truncToZero_lt _⟩
  · exact floorTranslation_frame t _ (floorTranslation_eq_some t h12 h13)

/-- C12 amended, at the translation `(1.5, -1.5)`: the result has translation
`(1, -1)`, not `(1, -2)`. -/
theorem floorTranslation_truncates_witness :
    ∃ r : sf.Transform,
      (Transform9 1 0 (3 / 2) 0 1 (-3 / 2) 0 0 1).floorTranslation = some r ∧
        r.m_matrix.m12 = 1 ∧ r.m_matrix.m13 = -1 := by
  obtain ⟨r, hr, ⟨⟨n, hn⟩, h1, h2⟩, ⟨⟨k, hk⟩, h3, h4⟩, _⟩ :=
    floorTranslation_truncates (Transform9 1 0 (3 / 2) 0 1 (-3 / 2) 0 0 1)
      (by norm_num [Transform9]) (by norm_num [Transform9])
  refine ⟨r, hr, ?_, ?_⟩
  · rw [hn] at h1 h2 ⊢
    simp only [Transform9] at h1 h2
    rw [abs_lt] at h2
    rw [abs_of_pos (show (0 : ℚ) < 3 / 2 by norm_num), abs_le] at h1
    have a1 : ((2 * n : ℤ) : ℚ) < ((4 : ℤ) : ℚ) := by push_cast; linarith
    have a2 : ((1 : ℤ) : ℚ) < ((2 * n : ℤ) : ℚ) := by push_cast; linarith
    have b1 : 2 * n < 4 := Int.cast_lt.mp a1
    have b2 : 1 < 2 * n := Int.cast_lt.mp a2
    have : n = 1 := by omega
    simp [this]
  · rw [hk] at h3 h4 ⊢
    simp only [Transform9] at h3 h4
    rw [abs_lt] at h4
    rw [abs_of_neg (show (-3 / 2 : ℚ) < 0 by norm_num), abs_le] at h3
    have a1 : ((2 * k : ℤ) : ℚ) < ((-1 : ℤ) : ℚ) := by push_cast; linarith
    have a2 : ((-4 : ℤ) : ℚ) < ((2 * k : ℤ) : ℚ) := by push_cast; linarith
    have b1 : 2 * k < -1 := Int.cast_lt.mp a1
    have b2 : -4 < 2 * k := Int.cast_lt.mp a2
    have : k = -1 := by omega
    simp [this]

/-- C13: `L == R` holds exactly when the entries at indices 0, 1, 3, 4, 5, 7, 12, 13
and 15 are pairwise equal; replacing the other seven entries of either operand never
changes the result; and `L != R` is the negation of `L == R`. -/
theorem opEq_iff_nine_entries (L R : sf.Transform) :
    (opEq L R = true ↔
      (L.getMatrix.m0 = R.getMatrix.m0 ∧ L.getMatrix.m1 = R.getMatrix.m1 ∧
        L.getMatrix.m3 = R.getMatrix.m3 ∧ L.getMatrix.m4 = R.getMatrix.m4 ∧
        L.getMatrix.m5 = R.getMatrix.m5 ∧ L.getMatrix.m7 = R.getMatrix.m7 ∧
        L.getMatrix.m12 = R.getMatrix.m12 ∧ L.getMatrix.m13 = R.getMatrix.m13 ∧
        L.getMatrix.m15 = R.getMatrix.m15)) ∧
      (∀ l2 l6 l8 l9 l10 l11 l14 r2 r6 r8 r9 r10 r11 r14 : ℚ,
        opEq
          (L.setMatrix { L.getMatrix with
            m2 := l2, m6 := l6, m8 := l8, m9 := l9, m10 := l10, m11 := l11, m14 := l14 })
          (R.setMatrix { R.getMatrix with
            m2 := r2, m6 := r6, m8 := r8, m9 := r9, m10 := r10, m11 := r11, m14 := r14 }) =
          opEq L R) ∧
      opNe L R = !(opEq L R) := by
  refine ⟨?_, ?_, rfl⟩
  · simp only [opEq, Bool.and_eq_true, decide_eq_true_eq, and_assoc]
  · intros
    rfl

/-- C14: starting from the default or the nine-coefficient constructor, after any
sequence of `combine`, `translate`, `rotate`, `scale` and `floorTranslation` calls
the entries 2, 6, 8, 9, 11 and 14 of `getMatrix()` are 0 and entry 10 is 1; the same
holds for every value returned by `getInverse` and by `operator *`. -/
theorem fixed_entries_invariant (T : Trig) (ops : List Op)
    (a00 a01 a02 a10 a11 a12 a20 a21 a22 : ℚ) (t : sf.Transform) :
    (runOps T ops Transform0 = some t → FixedEntries t) ∧
      (runOps T ops (Transform9 a00 a01 a02 a10 a11 a12 a20 a21 a22) = some t →
        FixedEntries t) ∧
      (∀ s : sf.Transform, FixedEntries s.getInverse) ∧
      (∀ l r : sf.Transform, FixedEntries (opMul l r)) := by
  refine ⟨fun h => ?_, fun h => ?_, FixedEntries_getInverse, fun l r => FixedEntries_combine l r⟩
  · exact FixedEntries_runOps T ops _ t h (by simp [FixedEntries, getMatrix, Transform0])
  · exact FixedEntries_runOps T ops _ t h (FixedEntries_Transform9 _ _ _ _ _ _ _ _ _)

/-- C15: in exact arithmetic, for every affine transform `T` with non-zero
determinant and every point `p`, `T.getInverse()` applied after `T` gives back `p`,
and `T` applied after `T.getInverse()` gives back `p`. -/
theorem getInverse_transformPoint_roundtrip (T : sf.Transform) (hT : IsAffine T)
    (hdet : T.det ≠ 0) (p : Vector2f) :
    T.getInverse.transformPointV (T.transformPointV p) = p ∧
      T.transformPointV (T.getInverse.transformPointV p) = p := by
  constructor
  · rw [← transformPointV_combine_of_affine T.getInverse T hT p]
    apply transformPointV_of_M_eq_one
    rw [M_combine]
    exact Matrix.mul_eq_one_comm.mp (M_mul_M_getInverse T hdet)
  · rw [← transformPointV_combine_of_affine T T.getInverse (IsAffine_getInverse T hT hdet) p]
    apply transformPointV_of_M_eq_one
    rw [M_combine]
    exact M_mul_M_getInverse T hdet

/-- C15 at the affine transform with coefficients `(2,1,3, 0,1,5, 0,0,1)`, of
determinant 2, and the point `(7, -4)`. -/
theorem getInverse_transformPoint_roundtrip_witness :
    (Transform9 2 1 3 0 1 5 0 0 1).getInverse.transformPointV
        ((Transform9 2 1 3 0 1 5 0 0 1).transformPointV { x := 7, y := -4 }) =
        { x := 7, y := -4 } ∧
      (Transform9 2 1 3 0 1 5 0 0 1).transformPointV
        ((Transform9 2 1 3 0 1 5 0 0 1).getInverse.transformPointV { x := 7, y := -4 }) =
        { x := 7, y := -4 } :=
  getInverse_transformPoint_roundtrip (Transform9 2 1 3 0 1 5 0 0 1)
    (by simp [IsAffine, Transform9]) (by norm_num [det, Transform9]) { x := 7, y := -4 }


/-- C14 at the calls `translate(1.5, -3.5)`, `rotate(90)` (cosine 0, sine 1),
`floorTranslation()`, `scale(2, 3)` on a default-constructed transform. -/
theorem fixed_entries_invariant_witness :
    ∃ t : sf.Transform,
      runOps ⟨22 / 7, fun _ => 0, fun _ => 1⟩
          [Op.translate (3 / 2) (-7 / 2), Op.rotate 90, Op.floorTranslation, Op.scale 2 3]
          Transform0 = some t ∧
        FixedEntries t := by
  have h12 : -2 ^ 31 - 1 <
        ((Transform0.translate (3 / 2) (-7 / 2)).rotate
          ⟨22 / 7, fun _ => 0, fun _ => 1⟩ 90).m_matrix.m12 ∧
      ((Transform0.translate (3 / 2) (-7 / 2)).rotate
          ⟨22 / 7, fun _ => 0, fun _ => 1⟩ 90).m_matrix.m12 < 2 ^ 31 := by
    norm_num [rotate, translate, combine, Transform9, Transform0]
  have h13 : -2 ^ 31 - 1 <
        ((Transform0.translate (3 / 2) (-7 / 2)).rotate
          ⟨22 / 7, fun _ => 0, fun _ => 1⟩ 90).m_matrix.m13 ∧
      ((Transform0.translate (3 / 2) (-7 / 2)).rotate
          ⟨22 / 7, fun _ => 0, fun _ => 1⟩ 90).m_matrix.m13 < 2 ^ 31 := by
    norm_num [rotate, translate, combine, Transform9, Transform0]
  have hrun : (runOps ⟨22 / 7, fun _ => 0, fun _ => 1⟩
      [Op.translate (3 / 2) (-7 / 2), Op.rotate 90, Op.floorTranslation, Op.scale 2 3]
      Transform0).isSome = true := by
    simp only [runOps, Op.apply, floorTranslation_eq_some _ h12 h13, Option.isSome_some]
  obtain ⟨t, ht⟩ := Option.isSome_iff_exists.mp hrun
  exact ⟨t, ht, (fixed_entries_invariant _ _ 0 0 0 0 0 0 0 0 0 t).1 ht⟩

end Transform

namespace View

/-! ## Helper lemmas on views -/

/-- The remainder `fmod x 360` has the sign of `x` and magnitude below 360. -/
theorem fmod_360_bounds (x : ℚ) :
    -360 < fmod x 360 ∧ fmod x 360 < 360 ∧ (0 ≤ x → 0 ≤ fmod x 360) ∧
      (x ≤ 0 → fmod x 360 ≤ 0) := by
  have h1 := Transform.abs_sub_truncToZero_lt (x / 360)
  rw [abs_lt] at h1
  have e : x = x / 360 * 360 := by ring
  have hs : (0 ≤ x → ((truncToZero (x / 360) : ℤ) : ℚ) ≤ x / 360) ∧
      (x ≤ 0 → x / 360 ≤ ((truncToZero (x / 360) : ℤ) : ℚ)) := by
    unfold truncToZero
    split_ifs with h
    · refine ⟨fun _ => Int.floor_le _, fun hx => ?_⟩
      have h0 : x / 360 = 0 := le_antisymm (by linarith) h
      rw [h0]
      simp
    · exact ⟨fun hx => absurd (div_nonneg hx (by norm_num)) h, fun _ => Int.le_ceil _⟩
  unfold fmod
  refine ⟨by linarith, by linarith, fun hx => ?_, fun hx => ?_⟩
  · have := hs.1 hx
    linarith
  · have := hs.2 hx
    linarith

/-- The rotation stored by `setRotation` lies in `[0, 360)` and differs from the
argument by a whole number of turns. -/
theorem setRotation_spec (v : View) (angle : ℚ) :
    0 ≤ (v.setRotation angle).getRotation ∧ (v.setRotation angle).getRotation < 360 ∧
      ∃ k : ℤ, angle - (v.setRotation angle).getRotation = (k : ℚ) * 360 := by
  obtain ⟨h1, h2, _, _⟩ := fmod_360_bounds angle
  simp only [setRotation, getRotation]
  split_ifs with h
  · refine ⟨by linarith, by linarith, truncToZero (angle / 360) - 1, ?_⟩
    unfold fmod
    push_cast
    ring
  · refine ⟨not_lt.mp h, h2, truncToZero (angle / 360), ?_⟩
    unfold fmod
    ring

/-- Two values of `[0, 360)` that differ from the same angle by whole turns are equal. -/
theorem normalized_unique (angle r s : ℚ) (hr0 : 0 ≤ r) (hr : r < 360) (hs0 : 0 ≤ s)
    (hs : s < 360) (kr : ∃ k : ℤ, angle - r = (k : ℚ) * 360)
    (ks : ∃ k : ℤ, angle - s = (k : ℚ) * 360) : r = s := by
  obtain ⟨a, ha⟩ := kr
  obtain ⟨b, hb⟩ := ks
  have e : r - s = ((b - a : ℤ) : ℚ) * 360 := by
    push_cast
    linarith
  have l1 : ((b - a : ℤ) : ℚ) < ((1 : ℤ) : ℚ) := by
    have : ((b - a : ℤ) : ℚ) * 360 < 360 := by linarith
    push_cast at this ⊢
    linarith
  have l2 : ((-1 : ℤ) : ℚ) < ((b - a : ℤ) : ℚ) := by
    have : -360 < ((b - a : ℤ) : ℚ) * 360 := by linarith
    push_cast at this ⊢
    linarith
  have m1 : b - a < 1 := Int.cast_lt.mp l1
  have m2 : -1 < b - a := Int.cast_lt.mp l2
  have z : b - a = 0 := by omega
  rw [z] at e
  simp only [Int.cast_zero, zero_mul] at e
  linarith

/-- With a stale forward cache, `getTransform` computes the forward derivation and
stores it. -/
theorem getTransform_of_stale (T : Trig) (v : View) (h : v.m_transformUpdated = false) :
    v.getTransform T =
      (forwardDerivation T v.m_center v.m_size v.m_rotation,
        { v with
          m_transform := forwardDerivation T v.m_center v.m_size v.m_rotation,
          m_transformUpdated := true }) := by
  simp [getTransform, h, forwardDerivation]

/-- With a valid forward cache, `getTransform` returns the cached transform and
leaves the view as it is. -/
theorem getTransform_of_valid (T : Trig) (v : View) (h : v.m_transformUpdated = true) :
    v.getTransform T = (v.m_transform, v) := by
  simp [getTransform, h]

/-- A second `getTransform` returns what the first returned. -/
theorem getTransform_twice (T : Trig) (v : View) :
    ((v.getTransform T).2.getTransform T).1 = (v.getTransform T).1 := by
  cases h : v.m_transformUpdated with
  | false => rw [getTransform_of_stale T v h, getTransform_of_valid T _ rfl]
  | true => rw [getTransform_of_valid T v h, getTransform_of_valid T v h]

/-- On a coherent view `getTransform` returns the forward derivation of the current
center, size and rotation. -/
theorem getTransform_of_Coherent (T : Trig) (v : View) (hv : Coherent T v) :
    (v.getTransform T).1 = forwardDerivation T v.m_center v.m_size v.m_rotation := by
  cases h : v.m_transformUpdated with
  | false => rw [getTransform_of_stale T v h]
  | true =>
    rw [getTransform_of_valid T v h]
    exact hv.2.1 h

/-- With a valid inverse cache, `getInverseTransform` returns the cached transform
and leaves the view as it is. -/
theorem getInverseTransform_of_valid (T : Trig) (v : View)
    (h : v.m_invTransformUpdated = true) :
    v.getInverseTransform T = (v.m_inverseTransform, v) := by
  simp [getInverseTransform, h]

/-- With a stale inverse cache, `getInverseTransform` reads the forward transform,
inverts it and stores the result. -/
theorem getInverseTransform_of_stale (T : Trig) (v : View)
    (h : v.m_invTransformUpdated = false) :
    v.getInverseTransform T =
      ((v.getTransform T).1.getInverse,
        { (v.getTransform T).2 with
          m_inverseTransform := (v.getTransform T).1.getInverse,
          m_invTransformUpdated := true }) := by
  simp [getInverseTransform, h]

/-- Reading the forward transform sets the forward flag and leaves the center, the
size, the rotation and the inverse flag as they are. -/
theorem getTransform_state (T : Trig) (v : View) :
    (v.getTransform T).2.m_transformUpdated = true ∧
      (v.getTransform T).2.m_center = v.m_center ∧
      (v.getTransform T).2.m_size = v.m_size ∧
      (v.getTransform T).2.m_rotation = v.m_rotation ∧
      (v.getTransform T).2.m_invTransformUpdated = v.m_invTransformUpdated ∧
      (v.getTransform T).2.m_inverseTransform = v.m_inverseTransform ∧
      (v.getTransform T).2.m_transform = (v.getTransform T).1 := by
  cases h : v.m_transformUpdated with
  | false => simp [getTransform_of_stale T v h]
  | true => simp [getTransform_of_valid T v h, h]

/-- On a coherent view `getInverseTransform` returns the inverse of the forward
derivation and leaves both cache flags set. -/
theorem getInverseTransform_of_Coherent (T : Trig) (v : View) (hv : Coherent T v) :
    (v.getInverseTransform T).1 =
        (forwardDerivation T v.m_center v.m_size v.m_rotation).getInverse ∧
      (v.getInverseTransform T).2.m_transformUpdated = true ∧
      (v.getInverseTransform T).2.m_invTransformUpdated = true := by
  cases hi : v.m_invTransformUpdated with
  | true =>
    rw [getInverseTransform_of_valid T v hi]
    exact ⟨hv.2.2 hi, hv.1 hi, hi⟩
  | false =>
    rw [getInverseTransform_of_stale T v hi]
    refine ⟨?_, (getTransform_state T v).1, rfl⟩
    show (v.getTransform T).1.getInverse = _
    rw [getTransform_of_Coherent T v hv]

/-- A view whose two cache flags are clear is coherent. -/
theorem Coherent_of_flags_clear (T : Trig) (v : View) (h1 : v.m_transformUpdated = false)
    (h2 : v.m_invTransformUpdated = false) : Coherent T v := by
  simp [Coherent, h1, h2]

/-- Reading the forward transform keeps a view coherent. -/
theorem Coherent_getTransform (T : Trig) (v : View) (hv : Coherent T v) :
    Coherent T (v.getTransform T).2 := by
  obtain ⟨s1, s2, s3, s4, s5, s6, s7⟩ := getTransform_state T v
  refine ⟨fun _ => s1, fun _ => ?_, fun hi => ?_⟩
  · rw [s7, s2, s3, s4]
    exact getTransform_of_Coherent T v hv
  · rw [s6, s2, s3, s4]
    exact hv.2.2 (s5 ▸ hi)

/-- Reading the inverse transform keeps a view coherent. -/
theorem Coherent_getInverseTransform (T : Trig) (v : View) (hv : Coherent T v) :
    Coherent T (v.getInverseTransform T).2 := by
  cases hi : v.m_invTransformUpdated with
  | true =>
    rw [getInverseTransform_of_valid T v hi]
    exact hv
  | false =>
    obtain ⟨s1, s2, s3, s4, _, _, s7⟩ := getTransform_state T v
    rw [getInverseTransform_of_stale T v hi]
    refine ⟨fun _ => s1, fun _ => ?_, fun _ => ?_⟩
    · show (v.getTransform T).2.m_transform =
        forwardDerivation T (v.getTransform T).2.m_center (v.getTransform T).2.m_size
          (v.getTransform T).2.m_rotation
      rw [s7, s2, s3, s4]
      exact getTransform_of_Coherent T v hv
    · show (v.getTransform T).1.getInverse =
        (forwardDerivation T (v.getTransform T).2.m_center (v.getTransform T).2.m_size
          (v.getTransform T).2.m_rotation).getInverse
      rw [s2, s3, s4, getTransform_of_Coherent T v hv]

/-- Each call keeps a view coherent. -/
theorem Coherent_apply (T : Trig) (call : Call) (v : View) (hv : Coherent T v) :
    Coherent T (call.apply T v) := by
  cases call with
  | setViewport viewport => exact hv
  | getTransform => exact Coherent_getTransform T v hv
  | getInverseTransform => exact Coherent_getInverseTransform T v hv
  | _ => exact Coherent_of_flags_clear T _ rfl rfl

/-- A sequence of calls keeps a view coherent. -/
theorem Coherent_runCalls (T : Trig) (calls : List Call) (v : View) (hv : Coherent T v) :
    Coherent T (runCalls T calls v) := by
  induction calls generalizing v with
  | nil => exact hv
  | cons call rest ih => exact ih _ (Coherent_apply T call v hv)

/-- A view built by the rectangle constructor is coherent, whatever its members held
before. -/
theorem Coherent_ViewRect (T : Trig) (members : View) (rectangle : FloatRect) :
    Coherent T (ViewRect members rectangle) :=
  Coherent_of_flags_clear T _ rfl rfl

/-! ## Claims on views -/

/-- C16: a default-constructed view is in the same state as
`View(FloatRect(0, 0, 1000, 1000))`: center `(500, 500)`, size `(1000, 1000)`,
rotation 0. -/
theorem View0_state (members : View) :
    View0 members = ViewRect members { left := 0, top := 0, width := 1000, height := 1000 } ∧
      (View0 members).getCenter = { x := 500, y := 500 } ∧
      (View0 members).getSize = { x := 1000, y := 1000 } ∧
      (View0 members).getRotation = 0 := by
  refine ⟨rfl, ?_, rfl, rfl⟩
  simp only [View0, reset, getCenter, Vector2f.mk.injEq]
  constructor <;> norm_num

/-- C17: over exact arithmetic, the rotation stored by `setRotation(angle)` is the
unique `r` with `0 <= r < 360` such that `angle - r` is a whole multiple of 360;
`setRotation(370)` stores 10 and `setRotation(-10)` stores 350. -/
theorem setRotation_normalizes (v : View) (angle : ℚ) :
    0 ≤ (v.setRotation angle).getRotation ∧ (v.setRotation angle).getRotation < 360 ∧
      (∃ k : ℤ, angle - (v.setRotation angle).getRotation = (k : ℚ) * 360) ∧
      (∀ r : ℚ, 0 ≤ r → r < 360 → (∃ k : ℤ, angle - r = (k : ℚ) * 360) →
        r = (v.setRotation angle).getRotation) ∧
      (v.setRotation 370).getRotation = 10 ∧
      (v.setRotation (-10)).getRotation = 350 := by
  obtain ⟨h0, h1, hk⟩ := setRotation_spec v angle
  refine ⟨h0, h1, hk, fun r hr0 hr hkr => ?_, ?_, ?_⟩
  · exact normalized_unique angle r _ hr0 hr h0 h1 hkr hk
  · obtain ⟨a0, a1, ak⟩ := setRotation_spec v 370
    exact (normalized_unique 370 10 _ (by norm_num) (by norm_num) a0 a1
      ⟨1, by norm_num⟩ ak).symm
  · obtain ⟨a0, a1, ak⟩ := setRotation_spec v (-10)
    exact (normalized_unique (-10) 350 _ (by norm_num) (by norm_num) a0 a1
      ⟨-1, by norm_num⟩ ak).symm

/-- C18: for every view with a stale forward cache, `getTransform()` returns the
transform with coefficients `(a*cosine, a*sine, a*tx + c, -b*sine, b*cosine,
b*ty + d, 0, 0, 1)` of the forward derivation for its center, size and rotation,
stores it in the forward cache and marks that cache valid. -/
theorem getTransform_stale_is_derivation (T : Trig) (v : View)
    (h : v.m_transformUpdated = false) :
    (v.getTransform T).1 =
        Transform.Transform9
          (2 / v.m_size.x * T.cos (v.m_rotation * T.pi / 180))
          (2 / v.m_size.x * T.sin (v.m_rotation * T.pi / 180))
          (2 / v.m_size.x *
              (-v.m_center.x * T.cos (v.m_rotation * T.pi / 180) -
                v.m_center.y * T.sin (v.m_rotation * T.pi / 180) + v.m_center.x) +
            -(2 / v.m_size.x) * v.m_center.x)
          (-(-2 / v.m_size.y) * T.sin (v.m_rotation * T.pi / 180))
          (-2 / v.m_size.y * T.cos (v.m_rotation * T.pi / 180))
          (-2 / v.m_size.y *
              (v.m_center.x * T.sin (v.m_rotation * T.pi / 180) -
                v.m_center.y * T.cos (v.m_rotation * T.pi / 180) + v.m_center.y) +
            -(-2 / v.m_size.y) * v.m_center.y)
          0 0 1 ∧
      (v.getTransform T).1 = forwardDerivation T v.m_center v.m_size v.m_rotation ∧
      (v.getTransform T).2.m_transform = (v.getTransform T).1 ∧
      (v.getTransform T).2.m_transformUpdated = true := by
  rw [getTransform_of_stale T v h]
  exact ⟨rfl, rfl, rfl, rfl⟩

/-- C18 at a default-constructed view with cosine 1 and sine 0: the coefficients are
`(1/500, 0, -1, 0, -1/500, 1, 0, 0, 1)`. -/
theorem getTransform_stale_is_derivation_witness :
    ((View0 ⟨⟨0, 0⟩, ⟨0, 0⟩, 0, ⟨0, 0, 1, 1⟩, Transform.Identity, Transform.Identity,
        true, true⟩).getTransform ⟨22 / 7, fun _ => 1, fun _ => 0⟩).1 =
      Transform.Transform9 (1 / 500) 0 (-1) 0 (-1 / 500) 1 0 0 1 := by
  rw [(getTransform_stale_is_derivation ⟨22 / 7, fun _ => 1, fun _ => 0⟩
    (View0 ⟨⟨0, 0⟩, ⟨0, 0⟩, 0, ⟨0, 0, 1, 1⟩, Transform.Identity, Transform.Identity,
      true, true⟩) rfl).1]
  norm_num [View0, reset, Transform.Transform9]

/-- C19: for a view built by the default or the rectangle constructor and any
sequence of `setCenter`, `setSize`, `setRotation`, `setViewport`, `reset`, `move`,
`zoom`, `rotate`, `getTransform` and `getInverseTransform` calls, `getTransform()`
returns the forward derivation of the current center, size and rotation, and a
second `getTransform()` right after returns the same value. -/
theorem getTransform_cache_coherent (T : Trig) (members : View) (rectangle : FloatRect)
    (calls : List Call) :
    ((runCalls T calls (View0 members)).getTransform T).1 =
        forwardDerivation T (runCalls T calls (View0 members)).getCenter
          (runCalls T calls (View0 members)).getSize
          (runCalls T calls (View0 members)).getRotation ∧
      (((runCalls T calls (View0 members)).getTransform T).2.getTransform T).1 =
        ((runCalls T calls (View0 members)).getTransform T).1 ∧
      ((runCalls T calls (ViewRect members rectangle)).getTransform T).1 =
        forwardDerivation T (runCalls T calls (ViewRect members rectangle)).getCenter
          (runCalls T calls (ViewRect members rectangle)).getSize
          (runCalls T calls (ViewRect members rectangle)).getRotation ∧
      (((runCalls T calls (ViewRect members rectangle)).getTransform T).2.getTransform T).1 =
        ((runCalls T calls (ViewRect members rectangle)).getTransform T).1 :=
  ⟨getTransform_of_Coherent T _ (Coherent_runCalls T calls _ (Coherent_ViewRect T members _)),
   getTransform_twice T _,
   getTransform_of_Coherent T _ (Coherent_runCalls T calls _ (Coherent_ViewRect T members _)),
   getTransform_twice T _⟩

/-- C20: for a view built by the default or the rectangle constructor and any
sequence of setters, `reset`, `move`, `zoom`, `rotate` and reads,
`getInverseTransform()` returns `getInverse()` of the forward derivation of the
current center, size and rotation, and after the call both cache flags are set. -/
theorem getInverseTransform_cache_coherent (T : Trig) (members : View)
    (rectangle : FloatRect) (calls : List Call) :
    (((runCalls T calls (View0 members)).getInverseTransform T).1 =
        (forwardDerivation T (runCalls T calls (View0 members)).getCenter
          (runCalls T calls (View0 members)).getSize
          (runCalls T calls (View0 members)).getRotation).getInverse ∧
      ((runCalls T calls (View0 members)).getInverseTransform T).2.m_transformUpdated = true ∧
      ((runCalls T calls (View0 members)).getInverseTransform T).2.m_invTransformUpdated =
        true) ∧
      (((runCalls T calls (ViewRect members rectangle)).getInverseTransform T).1 =
        (forwardDerivation T (runCalls T calls (ViewRect members rectangle)).getCenter
          (runCalls T calls (ViewRect members rectangle)).getSize
          (runCalls T calls (ViewRect members rectangle)).getRotation).getInverse ∧
      ((runCalls T calls (ViewRect members rectangle)).getInverseTransform T).2.m_transformUpdated =
        true ∧
      ((runCalls T calls
        (ViewRect members rectangle)).getInverseTransform T).2.m_invTransformUpdated = true) :=
  ⟨getInverseTransform_of_Coherent T _
     (Coherent_runCalls T calls _ (Coherent_ViewRect T members _)),
   getInverseTransform_of_Coherent T _
     (Coherent_runCalls T calls _ (Coherent_ViewRect T members _))⟩

end View

namespace Transform

/-! ## Affine closure -/

/-- A transform built from nine coefficients with bottom row `(0, 0, 1)` is affine. -/
theorem IsAffine_Transform9 (a00 a01 a02 a10 a11 a12 : ℚ) :
    IsAffine (Transform9 a00 a01 a02 a10 a11 a12 0 0 1) := by
  simp [IsAffine, Transform9]

/-- The exact quarter turn sends a rectangle of non-negative extents to the
rectangle with left `-(top + height)`, top `left`, and the extents swapped. -/
theorem transformRect_quarter (R : FloatRect) (hw : 0 ≤ R.width) (hh : 0 ≤ R.height) :
    (Transform9 0 (-1) 0 1 0 0 0 0 1).transformRect R =
      { left := -(R.top + R.height), top := R.left, width := R.height, height := R.width } := by
  rw [transformRect_eq]
  simp only [transformPoint, Transform9, FloatRect.mk.injEq]
  have e1 : ∀ a : ℚ, 0 * a = 0 := fun a => zero_mul a
  simp only [e1, zero_add, add_zero, neg_mul, one_mul]
  refine ⟨?_, ?_, ?_, ?_⟩
  · simp [hh]
  · simp [hw]
  · simp [hh]
  · simp [hw]

/-! ## Claims on translation, scaling, affine closure and the quarter turn -/

/-- C26, amended: in exact arithmetic, for every transform `T`, offset `(x, y)` and
point `(px, py)`,
`T.translate(x, y).transformPoint(px, py)` is `T.transformPoint(px + x, py + y)`:
`translate` combines with the matrix `(1,0,x, 0,1,y, 0,0,1)` on the right, so the
offset is applied to the point before `T`. -/
theorem translate_transformPoint (T : sf.Transform) (x y px py : ℚ) :
    T.translate x y = T.combine (Transform9 1 0 x 0 1 y 0 0 1) ∧
      (T.translate x y).transformPoint px py = T.transformPoint (px + x) (py + y) := by
  refine ⟨rfl, ?_⟩
  simp only [translate, combine, Transform9, transformPoint, Vector2f.mk.injEq]
  constructor <;> ring

/-- C27, amended: in exact arithmetic, the transform obtained by
`scale(sx, sy, cx, cy)` on an identity transform
maps `(px, py)` to `(cx + sx*(px - cx), cy + sy*(py - cy))`; its translation terms
are `cx*(1 - sx)` and `cy*(1 - sy)`, and it fixes the center `(cx, cy)`. -/
theorem scaleCenter_maps (sx sy cx cy px py : ℚ) :
    (Identity.scaleCenter sx sy cx cy).transformPoint px py =
        { x := cx + sx * (px - cx), y := cy + sy * (py - cy) } ∧
      (Identity.scaleCenter sx sy cx cy).getMatrix.m12 = cx * (1 - sx) ∧
      (Identity.scaleCenter sx sy cx cy).getMatrix.m13 = cy * (1 - sy) ∧
      (Identity.scaleCenter sx sy cx cy).transformPoint cx cy = { x := cx, y := cy } := by
  simp only [scaleCenter, combine, Transform9, Identity, Transform0, transformPoint,
    getMatrix, Vector2f.mk.injEq]
  refine ⟨⟨?_, ?_⟩, ?_, ?_, ?_, ?_⟩ <;> ring

/-- C29, amended: in exact arithmetic, for the exact quarter turn (coefficients
`0,-1,0, 1,0,0, 0,0,1`) and every rectangle of width `w >= 0` and height `h >= 0`,
`transformRect` returns a rectangle of width `h` and height `w`; each rotated corner
lies in it and each of its four sides is reached by a rotated corner. -/
theorem transformRect_quarter_turn_exact (R : FloatRect)
    (hw : 0 ≤ R.width) (hh : 0 ≤ R.height) :
    ((Transform9 0 (-1) 0 1 0 0 0 0 1).transformRect R).width = R.height ∧
      ((Transform9 0 (-1) 0 1 0 0 0 0 1).transformRect R).height = R.width ∧
      (∀ p ∈ (Transform9 0 (-1) 0 1 0 0 0 0 1).transformRectPoints R,
        ((Transform9 0 (-1) 0 1 0 0 0 0 1).transformRect R).left ≤ p.x ∧
        p.x ≤ ((Transform9 0 (-1) 0 1 0 0 0 0 1).transformRect R).left +
          ((Transform9 0 (-1) 0 1 0 0 0 0 1).transformRect R).width ∧
        ((Transform9 0 (-1) 0 1 0 0 0 0 1).transformRect R).top ≤ p.y ∧
        p.y ≤ ((Transform9 0 (-1) 0 1 0 0 0 0 1).transformRect R).top +
          ((Transform9 0 (-1) 0 1 0 0 0 0 1).transformRect R).height) ∧
      (∃ p ∈ (Transform9 0 (-1) 0 1 0 0 0 0 1).transformRectPoints R,
        p.x = ((Transform9 0 (-1) 0 1 0 0 0 0 1).transformRect R).left) ∧
      (∃ p ∈ (Transform9 0 (-1) 0 1 0 0 0 0 1).transformRectPoints R,
        p.x = ((Transform9 0 (-1) 0 1 0 0 0 0 1).transformRect R).left +
          ((Transform9 0 (-1) 0 1 0 0 0 0 1).transformRect R).width) ∧
      (∃ p ∈ (Transform9 0 (-1) 0 1 0 0 0 0 1).transformRectPoints R,
        p.y = ((Transform9 0 (-1) 0 1 0 0 0 0 1).transformRect R).top) ∧
      (∃ p ∈ (Transform9 0 (-1) 0 1 0 0 0 0 1).transformRectPoints R,
        p.y = ((Transform9 0 (-1) 0 1 0 0 0 0 1).transformRect R).top +
          ((Transform9 0 (-1) 0 1 0 0 0 0 1).transformRect R).height) := by
  rw [transformRect_quarter R hw hh]
  refine ⟨rfl, rfl, ?_, ?_, ?_, ?_, ?_⟩
  · intro p hp
    simp only [transformRectPoints, transformPoint, Transform9, List.mem_cons,
      List.mem_singleton, List.not_mem_nil, or_false] at hp
    rcases hp with rfl | rfl | rfl | rfl <;>
      simp only [] <;> refine ⟨?_, ?_, ?_, ?_⟩ <;> linarith
  · exact ⟨(Transform9 0 (-1) 0 1 0 0 0 0 1).transformPoint R.left (R.top + R.height),
      by simp [transformRectPoints], by simp [transformPoint, Transform9]⟩
  · exact ⟨(Transform9 0 (-1) 0 1 0 0 0 0 1).transformPoint R.left R.top,
      by simp [transformRectPoints], by simp [transformPoint, Transform9]⟩
  · exact ⟨(Transform9 0 (-1) 0 1 0 0 0 0 1).transformPoint R.left R.top,
      by simp [transformRectPoints], by simp [transformPoint, Transform9]⟩
  · exact ⟨(Transform9 0 (-1) 0 1 0 0 0 0 1).transformPoint (R.left + R.width) R.top,
      by simp [transformRectPoints], by simp [transformPoint, Transform9]⟩

/-- C29 amended, at the rectangle `(1, 2, 3, 4)`: the quarter turn gives a rectangle
4 wide and 3 high. -/
theorem transformRect_quarter_turn_exact_witness :
    ((Transform9 0 (-1) 0 1 0 0 0 0 1).transformRect
        { left := 1, top := 2, width := 3, height := 4 }).width = 4 ∧
      ((Transform9 0 (-1) 0 1 0 0 0 0 1).transformRect
        { left := 1, top := 2, width := 3, height := 4 }).height = 3 :=
  ⟨(transformRect_quarter_turn_exact
      { left := 1, top := 2, width := 3, height := 4 } (by norm_num) (by norm_num)).1,
   (transformRect_quarter_turn_exact
      { left := 1, top := 2, width := 3, height := 4 } (by norm_num) (by norm_num)).2.1⟩

end Transform

namespace View

/-! ## Claims on setters, frames and the projection -/

/-- Reading the forward transform leaves the viewport as it is. -/
theorem getTransform_viewport (T : Trig) (v : View) :
    (v.getTransform T).2.m_viewport = v.m_viewport := by
  cases h : v.m_transformUpdated with
  | false => rw [getTransform_of_stale T v h]
  | true => rw [getTransform_of_valid T v h]

/-- C21: whatever the two flags were before, each of `setCenter`, `setSize`,
`setRotation`, `reset`, `move`, `zoom` and `rotate` leaves the forward and the
inverse cache-valid flags false. -/
theorem setters_clear_flags (v : View) (x y width height angle factor : ℚ)
    (center size offset : Vector2f) (rectangle : FloatRect) :
    ((v.setCenter x y).m_transformUpdated = false ∧
        (v.setCenter x y).m_invTransformUpdated = false) ∧
      ((v.setCenterV center).m_transformUpdated = false ∧
        (v.setCenterV center).m_invTransformUpdated = false) ∧
      ((v.setSize width height).m_transformUpdated = false ∧
        (v.setSize width height).m_invTransformUpdated = false) ∧
      ((v.setSizeV size).m_transformUpdated = false ∧
        (v.setSizeV size).m_invTransformUpdated = false) ∧
      ((v.setRotation angle).m_transformUpdated = false ∧
        (v.setRotation angle).m_invTransformUpdated = false) ∧
      ((v.reset rectangle).m_transformUpdated = false ∧
        (v.reset rectangle).m_invTransformUpdated = false) ∧
      ((v.move x y).m_transformUpdated = false ∧
        (v.move x y).m_invTransformUpdated = false) ∧
      ((v.moveV offset).m_transformUpdated = false ∧
        (v.moveV offset).m_invTransformUpdated = false) ∧
      ((v.zoom factor).m_transformUpdated = false ∧
        (v.zoom factor).m_invTransformUpdated = false) ∧
      ((v.rotate angle).m_transformUpdated = false ∧
        (v.rotate angle).m_invTransformUpdated = false) :=
  ⟨⟨rfl, rfl⟩, ⟨rfl, rfl⟩, ⟨rfl, rfl⟩, ⟨rfl, rfl⟩, ⟨rfl, rfl⟩, ⟨rfl, rfl⟩, ⟨rfl, rfl⟩,
   ⟨rfl, rfl⟩, ⟨rfl, rfl⟩, ⟨rfl, rfl⟩⟩

/-- C22: `setViewport(r)` stores `r` as the viewport and leaves the center, the size,
the rotation, both cached transforms and both cache-valid flags as they were; a
following `getTransform()` returns what it would have returned before the call. -/
theorem setViewport_frame (T : Trig) (v : View) (viewport : FloatRect) :
    (v.setViewport viewport).getViewport = viewport ∧
      (v.setViewport viewport).getCenter = v.getCenter ∧
      (v.setViewport viewport).getSize = v.getSize ∧
      (v.setViewport viewport).getRotation = v.getRotation ∧
      (v.setViewport viewport).m_transform = v.m_transform ∧
      (v.setViewport viewport).m_inverseTransform = v.m_inverseTransform ∧
      (v.setViewport viewport).m_transformUpdated = v.m_transformUpdated ∧
      (v.setViewport viewport).m_invTransformUpdated = v.m_invTransformUpdated ∧
      ((v.setViewport viewport).getTransform T).1 = (v.getTransform T).1 := by
  refine ⟨rfl, rfl, rfl, rfl, rfl, rfl, rfl, rfl, ?_⟩
  cases h : v.m_transformUpdated with
  | false =>
    rw [getTransform_of_stale T v h, getTransform_of_stale T (v.setViewport viewport) h]
    rfl
  | true =>
    rw [getTransform_of_valid T v h, getTransform_of_valid T (v.setViewport viewport) h]
    rfl

/-- C23, amended: in exact arithmetic, for a view with rotation 0 (cosine 1, sine 0),
non-zero width `w` and height `h`, and coherent caches, `getTransform()` maps the world point
`(center.x + s*w/2, center.y + t*h/2)` to `(s, -t)`; so the points with `|s| <= 1`
and `|t| <= 1` land in `[-1,1] x [-1,1]`, the corner `(center.x - w/2, center.y - h/2)`
on `(-1, 1)` and the corner `(center.x + w/2, center.y + h/2)` on `(1, -1)`. -/
theorem getTransform_maps_window (T : Trig) (v : View) (hv : Coherent T v)
    (hrot : v.getRotation = 0) (hw : v.getSize.x ≠ 0) (hh : v.getSize.y ≠ 0)
    (hcos : T.cos 0 = 1) (hsin : T.sin 0 = 0) (s t : ℚ) :
    (v.getTransform T).1.transformPoint (v.getCenter.x + s * v.getSize.x / 2)
        (v.getCenter.y + t * v.getSize.y / 2) = { x := s, y := -t } ∧
      (|s| ≤ 1 → |t| ≤ 1 →
        |((v.getTransform T).1.transformPoint (v.getCenter.x + s * v.getSize.x / 2)
            (v.getCenter.y + t * v.getSize.y / 2)).x| ≤ 1 ∧
        |((v.getTransform T).1.transformPoint (v.getCenter.x + s * v.getSize.x / 2)
            (v.getCenter.y + t * v.getSize.y / 2)).y| ≤ 1) ∧
      (v.getTransform T).1.transformPoint (v.getCenter.x - v.getSize.x / 2)
        (v.getCenter.y - v.getSize.y / 2) = { x := -1, y := 1 } ∧
      (v.getTransform T).1.transformPoint (v.getCenter.x + v.getSize.x / 2)
        (v.getCenter.y + v.getSize.y / 2) = { x := 1, y := -1 } := by
  simp only [getRotation, getSize, getCenter] at hrot hw hh ⊢
  have key : ∀ a b : ℚ,
      (v.getTransform T).1.transformPoint (v.m_center.x + a * v.m_size.x / 2)
        (v.m_center.y + b * v.m_size.y / 2) = { x := a, y := -b } := by
    intro a b
    rw [getTransform_of_Coherent T v hv]
    simp only [forwardDerivation, hrot, zero_mul, zero_div, hcos, hsin, Transform.transformPoint,
      Transform.Transform9, Vector2f.mk.injEq]
    constructor
    · field_simp
      ring
    · field_simp
      ring
  refine ⟨key s t, fun hs ht => ?_, ?_, ?_⟩
  · rw [key s t]
    exact ⟨hs, by simpa using ht⟩
  · have := key (-1) (-1)
    simp only [neg_mul, one_mul, neg_neg] at this
    rw [← this]
    congr 1 <;> ring
  · have := key 1 1
    simp only [one_mul] at this
    exact this

/-- C23 amended, at a default-constructed view (center `(500, 500)`, size `(1000, 1000)`) with
`s = 1/2` and `t = 1/4`: the world point `(750, 625)` is mapped to `(1/2, -1/4)`. -/
theorem getTransform_maps_window_witness :
    (View0 ⟨⟨0, 0⟩, ⟨0, 0⟩, 0, ⟨0, 0, 1, 1⟩, Transform.Identity, Transform.Identity,
        true, true⟩).getCenter.x + 1 / 2 *
        (View0 ⟨⟨0, 0⟩, ⟨0, 0⟩, 0, ⟨0, 0, 1, 1⟩, Transform.Identity, Transform.Identity,
          true, true⟩).getSize.x / 2 = 750 ∧
      (View0 ⟨⟨0, 0⟩, ⟨0, 0⟩, 0, ⟨0, 0, 1, 1⟩, Transform.Identity, Transform.Identity,
        true, true⟩).getCenter.y + 1 / 4 *
        (View0 ⟨⟨0, 0⟩, ⟨0, 0⟩, 0, ⟨0, 0, 1, 1⟩, Transform.Identity, Transform.Identity,
          true, true⟩).getSize.y / 2 = 625 ∧
      ((View0 ⟨⟨0, 0⟩, ⟨0, 0⟩, 0, ⟨0, 0, 1, 1⟩, Transform.Identity, Transform.Identity,
        true, true⟩).getTransform ⟨22 / 7, fun _ => 1, fun _ => 0⟩).1.transformPoint
          ((View0 ⟨⟨0, 0⟩, ⟨0, 0⟩, 0, ⟨0, 0, 1, 1⟩, Transform.Identity, Transform.Identity,
            true, true⟩).getCenter.x + 1 / 2 *
            (View0 ⟨⟨0, 0⟩, ⟨0, 0⟩, 0, ⟨0, 0, 1, 1⟩, Transform.Identity, Transform.Identity,
              true, true⟩).getSize.x / 2)
          ((View0 ⟨⟨0, 0⟩, ⟨0, 0⟩, 0, ⟨0, 0, 1, 1⟩, Transform.Identity, Transform.Identity,
            true, true⟩).getCenter.y + 1 / 4 *
            (View0 ⟨⟨0, 0⟩, ⟨0, 0⟩, 0, ⟨0, 0, 1, 1⟩, Transform.Identity, Transform.Identity,
              true, true⟩).getSize.y / 2) = { x := 1 / 2, y := -(1 / 4) } :=
  ⟨by norm_num [View0, reset, getCenter, getSize],
   by norm_num [View0, reset, getCenter, getSize],
   (getTransform_maps_window ⟨22 / 7, fun _ => 1, fun _ => 0⟩
      (View0 ⟨⟨0, 0⟩, ⟨0, 0⟩, 0, ⟨0, 0, 1, 1⟩, Transform.Identity, Transform.Identity,
        true, true⟩)
      (Coherent_ViewRect _ _ _) rfl
      (by norm_num [View0, reset, getSize]) (by norm_num [View0, reset, getSize])
      rfl rfl (1 / 2) (1 / 4)).1⟩

/-- C24: `reset(left, top, width, height)` sets the center to
`(left + width/2, top + height/2)`, the size to `(width, height)` and the rotation to
0, clears both cache-valid flags and leaves the viewport as it was. -/
theorem reset_state (v : View) (rectangle : FloatRect) :
    (v.reset rectangle).getCenter =
        { x := rectangle.left + rectangle.width / 2, y := rectangle.top + rectangle.height / 2 } ∧
      (v.reset rectangle).getSize = { x := rectangle.width, y := rectangle.height } ∧
      (v.reset rectangle).getRotation = 0 ∧
      (v.reset rectangle).m_transformUpdated = false ∧
      (v.reset rectangle).m_invTransformUpdated = false ∧
      (v.reset rectangle).getViewport = v.getViewport :=
  ⟨rfl, rfl, rfl, rfl, rfl, rfl⟩

/-- C30: `getTransform()` changes the forward cache only: afterwards the forward flag
is true and the cached forward transform is the returned one, while the center, the
size, the rotation, the viewport, the cached inverse transform and the inverse flag
are as before. -/
theorem getTransform_frame (T : Trig) (v : View) :
    (v.getTransform T).2.m_transformUpdated = true ∧
      (v.getTransform T).2.m_transform = (v.getTransform T).1 ∧
      (v.getTransform T).2.getCenter = v.getCenter ∧
      (v.getTransform T).2.getSize = v.getSize ∧
      (v.getTransform T).2.getRotation = v.getRotation ∧
      (v.getTransform T).2.getViewport = v.getViewport ∧
      (v.getTransform T).2.m_inverseTransform = v.m_inverseTransform ∧
      (v.getTransform T).2.m_invTransformUpdated = v.m_invTransformUpdated := by
  obtain ⟨s1, s2, s3, s4, s5, s6, s7⟩ := getTransform_state T v
  exact ⟨s1, s7, s2, s3, s4, getTransform_viewport T v, s6, s5⟩

end View

namespace Time

/-! ## Claims on time values -/

/-- A product that fits 64 bits is left as it is by 64-bit arithmetic. -/
theorem wrapInt64_of_fits (x : ℤ) (h1 : -2 ^ 63 ≤ x) (h2 : x < 2 ^ 63) : wrapInt64 x = x := by
  unfold wrapInt64
  omega

/-- C25: for every 32-bit integer `n`, `Time::milliseconds(n).asMicroseconds()` is
`1000 * n`, and the 64-bit product does not overflow. -/
theorem milliseconds_asMicroseconds (n : ℤ) (hn : IsInt32 n) :
    (milliseconds n).asMicroseconds = 1000 * n ∧ -2 ^ 63 ≤ 1000 * n ∧ 1000 * n < 2 ^ 63 := by
  obtain ⟨h1, h2⟩ := hn
  have b1 : -2 ^ 63 ≤ n * 1000 := by omega
  have b2 : n * 1000 < 2 ^ 63 := by omega
  refine ⟨?_, by omega, by omega⟩
  simp only [milliseconds, TimeMicro, asMicroseconds]
  rw [wrapInt64_of_fits _ b1 b2]
  ring

/-- C25 at the documented instance: `milliseconds(30)` is 30000 microseconds. -/
theorem milliseconds_asMicroseconds_witness :
    IsInt32 30 ∧ (milliseconds 30).asMicroseconds = 30000 :=
  ⟨by unfold IsInt32; omega,
   (milliseconds_asMicroseconds 30 (by unfold IsInt32; omega)).1⟩

end Time

namespace Color

/-! ## Helper lemmas on colors -/

/-- Masking a byte in place and shifting it down gives that byte. -/
theorem and_mask_shiftRight (c k : ℕ) : (c &&& (255 <<< k)) >>> k = (c >>> k) % 256 := by
  apply Nat.eq_of_testBit_eq
  intro j
  have e255 : (255 : ℕ) = 2 ^ 8 - 1 := by norm_num
  have e256 : (256 : ℕ) = 2 ^ 8 := by norm_num
  rw [e255, e256]
  simp only [Nat.testBit_shiftRight, Nat.testBit_and, Nat.testBit_shiftLeft,
    Nat.testBit_mod_two_pow, Nat.testBit_two_pow_sub_one, Nat.add_sub_cancel_left]
  have : k + j ≥ k := Nat.le_add_right k j
  simp [this, Bool.and_comm]

/-- The four components of `Color(Uint32)` are the four bytes of the argument. -/
theorem ColorU32_eq (c : ℕ) :
    ColorU32 c =
      { r := c / 2 ^ 24 % 256, g := c / 2 ^ 16 % 256, b := c / 2 ^ 8 % 256, a := c % 256 } := by
  have h24 : (c &&& 0xff000000) >>> 24 = (c >>> 24) % 256 := by
    have h := and_mask_shiftRight c 24
    rwa [show (255 <<< 24 : ℕ) = 0xff000000 by decide] at h
  have h16 : (c &&& 0x00ff0000) >>> 16 = (c >>> 16) % 256 := by
    have h := and_mask_shiftRight c 16
    rwa [show (255 <<< 16 : ℕ) = 0x00ff0000 by decide] at h
  have h8 : (c &&& 0x0000ff00) >>> 8 = (c >>> 8) % 256 := by
    have h := and_mask_shiftRight c 8
    rwa [show (255 <<< 8 : ℕ) = 0x0000ff00 by decide] at h
  have h0 : (c &&& 0x000000ff) >>> 0 = (c >>> 0) % 256 := by
    have h := and_mask_shiftRight c 0
    rwa [show (255 <<< 0 : ℕ) = 0x000000ff by decide] at h
  simp only [ColorU32, toUint8]
  rw [h24, h16, h8, h0]
  simp only [Nat.shiftRight_eq_div_pow, Nat.mod_mod, pow_zero, Nat.div_one]

/-- For `Uint8` components, `toInteger` is the number with `r` as its most
significant byte and `a` as its least significant byte. -/
theorem toInteger_eq (x : Color) (hx : IsValid x) :
    x.toInteger = x.r * 2 ^ 24 + x.g * 2 ^ 16 + x.b * 2 ^ 8 + x.a := by
  obtain ⟨hr, hg, hb, ha⟩ := hx
  have er : (x.r <<< 24) % 2 ^ 32 = 2 ^ 24 * x.r := by
    rw [Nat.shiftLeft_eq]
    omega
  have eg : (x.g <<< 16) % 2 ^ 32 = 2 ^ 16 * x.g := by
    rw [Nat.shiftLeft_eq]
    omega
  have eb : (x.b <<< 8) % 2 ^ 32 = 2 ^ 8 * x.b := by
    rw [Nat.shiftLeft_eq]
    omega
  unfold toInteger
  rw [er, eg, eb, Nat.or_assoc, Nat.or_assoc]
  rw [← Nat.mul_add_lt_is_or (show x.a < 2 ^ 8 by omega)]
  rw [← Nat.mul_add_lt_is_or (show 2 ^ 8 * x.b + x.a < 2 ^ 16 by omega)]
  rw [← Nat.mul_add_lt_is_or (show 2 ^ 16 * x.g + (2 ^ 8 * x.b + x.a) < 2 ^ 24 by omega)]
  omega

/-- For `Uint8` operands the quotient of the product by 255 is a `Uint8` again and is
at most each operand. -/
theorem mul_div_255 (a b : ℕ) (ha : a < 256) (hb : b < 256) :
    toUint8 (a * b / 255) = a * b / 255 ∧ a * b / 255 ≤ a ∧ a * b / 255 ≤ b := by
  have h1 : a * b / 255 ≤ a := by
    apply Nat.div_le_of_le_mul
    calc a * b ≤ a * 255 := Nat.mul_le_mul_left a (by omega)
      _ = 255 * a := Nat.mul_comm a 255
  have h2 : a * b / 255 ≤ b := by
    apply Nat.div_le_of_le_mul
    exact Nat.mul_le_mul_right b (by omega)
  refine ⟨?_, h1, h2⟩
  unfold toUint8
  omega

/-! ## Claims on colors -/

/-- C37: for every 32-bit unsigned value `c`, `Color(c).toInteger()` is `c`; for every
color `x` with components in `0..255`, `Color(x.toInteger())` is `x`, and
`x.toInteger()` has `r` in the most significant byte and `a` in the least
significant one. -/
theorem toInteger_roundtrip (c : ℕ) (hc : c < 2 ^ 32) (x : Color) (hx : IsValid x) :
    (ColorU32 c).toInteger = c ∧
      ColorU32 x.toInteger = x ∧
      opEq (ColorU32 x.toInteger) x = true ∧
      x.toInteger = x.r * 2 ^ 24 + x.g * 2 ^ 16 + x.b * 2 ^ 8 + x.a := by
  have h1 : (ColorU32 c).toInteger = c := by
    rw [toInteger_eq _ (by rw [ColorU32_eq]; simp only [IsValid]; omega), ColorU32_eq]
    simp only
    omega
  have h2 : ColorU32 x.toInteger = x := by
    obtain ⟨hr, hg, hb, ha⟩ := hx
    rw [toInteger_eq x ⟨hr, hg, hb, ha⟩, ColorU32_eq]
    obtain ⟨r, g, b, a⟩ := x
    simp only at hr hg hb ha
    simp only [Color.mk.injEq]
    refine ⟨?_, ?_, ?_, ?_⟩ <;> omega
  refine ⟨h1, h2, ?_, toInteger_eq x hx⟩
  rw [h2]
  simp [opEq]

/-- C37 at the value `0x11223344` and the color `(255, 128, 0, 1)`. -/
theorem toInteger_roundtrip_witness :
    (ColorU32 0x11223344).toInteger = 0x11223344 ∧
      ColorU32 (Color4 255 128 0 1).toInteger = Color4 255 128 0 1 ∧
      (Color4 255 128 0 1).toInteger = 0xff800001 := by
  obtain ⟨h1, h2, _, h4⟩ := toInteger_roundtrip 0x11223344 (by norm_num) (Color4 255 128 0 1)
    (by simp [IsValid, Color4])
  refine ⟨h1, h2, ?_⟩
  rw [h4]
  simp [Color4]

/-- C38: for all colors `x` and `y` with components in `0..255`, `x * y == y * x`;
every component of `x * y` is the integer quotient of the product of the operands'
components by 255 and is at most each of them; and the opaque white
`Color(255,255,255,255)` is a two-sided identity. -/
theorem opMul_properties (x y : Color) (hx : IsValid x) (hy : IsValid y) :
    opEq (opMul x y) (opMul y x) = true ∧
      ((opMul x y).r = x.r * y.r / 255 ∧ (opMul x y).g = x.g * y.g / 255 ∧
        (opMul x y).b = x.b * y.b / 255 ∧ (opMul x y).a = x.a * y.a / 255) ∧
      ((opMul x y).r ≤ min x.r y.r ∧ (opMul x y).g ≤ min x.g y.g ∧
        (opMul x y).b ≤ min x.b y.b ∧ (opMul x y).a ≤ min x.a y.a) ∧
      opEq (opMul x (Color4 255 255 255 255)) x = true ∧
      opEq (opMul (Color4 255 255 255 255) x) x = true := by
  obtain ⟨xr, xg, xb, xa⟩ := hx
  obtain ⟨yr, yg, yb, ya⟩ := hy
  obtain ⟨r1, r2, r3⟩ := mul_div_255 x.r y.r xr yr
  obtain ⟨g1, g2, g3⟩ := mul_div_255 x.g y.g xg yg
  obtain ⟨b1, b2, b3⟩ := mul_div_255 x.b y.b xb yb
  obtain ⟨a1, a2, a3⟩ := mul_div_255 x.a y.a xa ya
  refine ⟨?_, ⟨r1, g1, b1, a1⟩, ⟨?_, ?_, ?_, ?_⟩, ?_, ?_⟩
  · simp [opEq, opMul, Color4, Nat.mul_comm]
  · show toUint8 (x.r * y.r / 255) ≤ min x.r y.r
    rw [r1]
    exact le_min r2 r3
  · show toUint8 (x.g * y.g / 255) ≤ min x.g y.g
    rw [g1]
    exact le_min g2 g3
  · show toUint8 (x.b * y.b / 255) ≤ min x.b y.b
    rw [b1]
    exact le_min b2 b3
  · show toUint8 (x.a * y.a / 255) ≤ min x.a y.a
    rw [a1]
    exact le_min a2 a3
  · simp only [opEq, opMul, Color4, toUint8, Bool.and_eq_true, decide_eq_true_eq]
    refine ⟨⟨⟨?_, ?_⟩, ?_⟩, ?_⟩ <;> omega
  · simp only [opEq, opMul, Color4, toUint8, Bool.and_eq_true, decide_eq_true_eq]
    refine ⟨⟨⟨?_, ?_⟩, ?_⟩, ?_⟩ <;> omega

/-- C38 at `x = (200, 100, 50, 255)` and `y = (128, 255, 0, 127)`: the product is
`(100, 100, 0, 127)`. -/
theorem opMul_properties_witness :
    opEq (opMul (Color4 200 100 50 255) (Color4 128 255 0 127))
        (opMul (Color4 128 255 0 127) (Color4 200 100 50 255)) = true ∧
      (opMul (Color4 200 100 50 255) (Color4 128 255 0 127)).r = 100 ∧
      (opMul (Color4 200 100 50 255) (Color4 128 255 0 127)).a = 127 := by
  obtain ⟨h1, ⟨hr, _, _, ha⟩, _⟩ := opMul_properties (Color4 200 100 50 255)
    (Color4 128 255 0 127) (by simp [IsValid, Color4]) (by simp [IsValid, Color4])
  refine ⟨h1, ?_, ?_⟩
  · rw [hr]
    simp [Color4]
  · rw [ha]
    simp [Color4]

end Color

namespace Transform

/-! ## Claims on composition -/

/-- Applying the inverse after an affine transform with non-zero determinant gives
the point back. -/
theorem getInverse_after (T : sf.Transform) (hT : IsAffine T) (hdet : T.det ≠ 0)
    (p : Vector2f) : T.getInverse.transformPointV (T.transformPointV p) = p := by
  rw [← transformPointV_combine_of_affine T.getInverse T hT p]
  apply transformPointV_of_M_eq_one
  rw [M_combine]
  exact Matrix.mul_eq_one_comm.mp (M_mul_M_getInverse T hdet)

/-- C31: for every transform `A`, with no condition on it, every affine transform `B`
and every point, transforming by `A.combine(B)` is transforming by `B` and then by
`A`, in exact arithmetic. -/
theorem combine_applies_right_first (A B : sf.Transform) (hB : IsAffine B) (x y : ℚ)
    (p : Vector2f) :
    (A.combine B).transformPoint x y =
        A.transformPoint (B.transformPoint x y).x (B.transformPoint x y).y ∧
      (A.combine B).transformPointV p = A.transformPointV (B.transformPointV p) ∧
      opMulV (opMul A B) p = opMulV A (opMulV B p) :=
  ⟨transformPointV_combine_of_affine A B hB { x := x, y := y },
   transformPointV_combine_of_affine A B hB p,
   transformPointV_combine_of_affine A B hB p⟩

/-- C31 at the non-affine `A = Transform(1,2,3, 4,5,6, 7,8,9)`, the affine
`B = Transform(2,0,1, 0,3,-1, 0,0,1)` and the point `(1, 1)`, sent to `(10, 28)`. -/
theorem combine_applies_right_first_witness :
    ¬ IsAffine (Transform9 1 2 3 4 5 6 7 8 9) ∧
      ((Transform9 1 2 3 4 5 6 7 8 9).combine (Transform9 2 0 1 0 3 (-1) 0 0 1)).transformPoint
          1 1 = { x := 10, y := 28 } := by
  refine ⟨by simp [IsAffine, Transform9], ?_⟩
  rw [(combine_applies_right_first (Transform9 1 2 3 4 5 6 7 8 9)
    (Transform9 2 0 1 0 3 (-1) 0 0 1) (IsAffine_Transform9 _ _ _ _ _ _) 1 1
    { x := 1, y := 1 }).1]
  norm_num [transformPoint, Transform9]

/-- C32: on an identity transform, `rotate(angle, c)` gives exactly the transform of
the chained calls `translate(c).rotate(angle).translate(-c)`; a point is moved by
`-c`, rotated, and moved by `+c`. -/
theorem rotateCenter_Identity_eq_chain (T : Trig) (angle : ℚ) (c : Vector2f) (px py : ℚ) :
    Identity.rotateCenterV T angle c =
        ((Identity.translateV c).rotate T angle).translateV (Vector2f.opNeg c) ∧
      Identity.rotateCenter T angle c.x c.y =
        ((Identity.translate c.x c.y).rotate T angle).translate (-c.x) (-c.y) ∧
      (Identity.rotateCenterV T angle c).transformPoint px py =
        { x := T.cos (angle * T.pi / 180) * (px - c.x) -
                T.sin (angle * T.pi / 180) * (py - c.y) + c.x,
          y := T.sin (angle * T.pi / 180) * (px - c.x) +
                T.cos (angle * T.pi / 180) * (py - c.y) + c.y } := by
  refine ⟨rotateCenter_eq_chain T Identity angle c.x c.y,
    rotateCenter_eq_chain T Identity angle c.x c.y, ?_⟩
  simp only [rotateCenterV, rotateCenter, combine, Transform9, Identity, Transform0,
    transformPoint, Vector2f.mk.injEq]
  constructor <;> ring

/-- C33: `(A * B) * C == A * (B * C)` for all transforms, in exact arithmetic, with
`*` the transform `operator *`; the two sides are even the same sixteen entries. -/
theorem opMul_assoc (A B C : sf.Transform) :
    opEq (opMul (opMul A B) C) (opMul A (opMul B C)) = true ∧
      opMul (opMul A B) C = opMul A (opMul B C) := by
  constructor
  · rw [opEq_iff_M]
    simp only [opMul, M_combine, Matrix.mul_assoc]
  · simp only [opMul, combine, Transform9, Transform.mk.injEq, Matrix4x4.mk.injEq]
    refine ⟨?_, ?_, ?_, ?_, ?_, ?_, ?_, ?_, ?_, ?_, ?_, ?_, ?_, ?_, ?_, ?_⟩ <;>
      first | trivial | ring

/-- C34: `combine` rebuilds all sixteen entries, so `T.combine(Identity).getMatrix()`
equals `T.getMatrix()` only when the seven fixed entries of `T` hold their default
values, while `T.combine(Identity) == T` is always true; after `setMatrix` with entry
2 set to 5 the two matrices differ. -/
theorem combine_resets_fixed_entries (T : sf.Transform) :
    opEq (T.combine Identity) T = true ∧
      ((T.combine Identity).getMatrix = T.getMatrix ↔ FixedEntries T) ∧
      ((Transform0.setMatrix { Transform0.getMatrix with m2 := 5 }).combine Identity).getMatrix ≠
        (Transform0.setMatrix { Transform0.getMatrix with m2 := 5 }).getMatrix ∧
      opEq ((Transform0.setMatrix { Transform0.getMatrix with m2 := 5 }).combine Identity)
        (Transform0.setMatrix { Transform0.getMatrix with m2 := 5 }) = true := by
  have h1 : ∀ S : sf.Transform, opEq (S.combine Identity) S = true := by
    intro S
    rw [opEq_iff_M, M_combine, M_Identity, mul_one]
  have h2 : ∀ S : sf.Transform, (S.combine Identity).getMatrix = S.getMatrix ↔ FixedEntries S := by
    intro S
    constructor
    · intro h
      have hf := FixedEntries_combine S Identity
      simp only [FixedEntries] at hf ⊢
      rw [h] at hf
      exact hf
    · rintro ⟨f2, f6, f8, f9, f11, f14, f10⟩
      obtain ⟨⟨m0, m1, m2, m3, m4, m5, m6, m7, m8, m9, m10, m11, m12, m13, m14, m15⟩⟩ := S
      simp only [getMatrix] at f2 f6 f8 f9 f11 f14 f10
      subst f2 f6 f8 f9 f11 f14 f10
      simp [getMatrix, combine, Transform9, Identity, Transform0]
  refine ⟨h1 T, h2 T, ?_, h1 _⟩
  intro h
  have hf := (h2 _).mp h
  simp [FixedEntries, getMatrix, setMatrix, Transform0] at hf

end Transform

namespace View

/-! ## Claims on the projection of a view -/

/-- The forward derivation is an affine transform. -/
theorem IsAffine_forwardDerivation (T : Trig) (center size : Vector2f) (rotation : ℚ) :
    Transform.IsAffine (forwardDerivation T center size rotation) :=
  Transform.IsAffine_Transform9 _ _ _ _ _ _

/-- The determinant of the forward derivation is `(2 / w) * (-2 / h)` times
`cosine^2 + sine^2`. -/
theorem det_forwardDerivation (T : Trig) (center size : Vector2f) (rotation : ℚ) :
    (forwardDerivation T center size rotation).det =
      2 / size.x * (-2 / size.y) *
        (T.cos (rotation * T.pi / 180) ^ 2 + T.sin (rotation * T.pi / 180) ^ 2) := by
  simp only [Transform.det, forwardDerivation, Transform.Transform9]
  ring

/-- Reading the inverse transform leaves the center, the size and the rotation as
they are. -/
theorem getInverseTransform_state (T : Trig) (v : View) :
    (v.getInverseTransform T).2.m_center = v.m_center ∧
      (v.getInverseTransform T).2.m_size = v.m_size ∧
      (v.getInverseTransform T).2.m_rotation = v.m_rotation := by
  cases hi : v.m_invTransformUpdated with
  | true =>
    rw [getInverseTransform_of_valid T v hi]
    exact ⟨rfl, rfl, rfl⟩
  | false =>
    obtain ⟨_, s2, s3, s4, _⟩ := getTransform_state T v
    rw [getInverseTransform_of_stale T v hi]
    exact ⟨s2, s3, s4⟩

/-- C35: for every view with coherent caches and non-zero size components, whatever
the center, the rotation and the values of the cosine and sine, `getTransform()` maps
the center of the view to `(0, 0)`, in exact arithmetic. -/
theorem getTransform_maps_center (T : Trig) (v : View) (hv : Coherent T v)
    (_hw : v.getSize.x ≠ 0) (_hh : v.getSize.y ≠ 0) :
    (v.getTransform T).1.transformPointV v.getCenter = { x := 0, y := 0 } ∧
      (v.getTransform T).1.transformPoint v.getCenter.x v.getCenter.y = { x := 0, y := 0 } := by
  have key : (v.getTransform T).1.transformPoint v.m_center.x v.m_center.y =
      { x := 0, y := 0 } := by
    rw [getTransform_of_Coherent T v hv]
    simp only [forwardDerivation, Transform.transformPoint, Transform.Transform9,
      Vector2f.mk.injEq]
    constructor <;> ring
  exact ⟨key, key⟩

/-- C35 at the view obtained from a default-constructed one by `setCenter(3, 4)`,
`setSize(8, 6)` and `setRotation(30)`, with cosine 4/5 and sine 3/5. -/
theorem getTransform_maps_center_witness :
    ((runCalls ⟨22 / 7, fun _ => 4 / 5, fun _ => 3 / 5⟩
        [Call.setCenter 3 4, Call.setSize 8 6, Call.setRotation 30]
        (View0 ⟨⟨0, 0⟩, ⟨0, 0⟩, 0, ⟨0, 0, 1, 1⟩, Transform.Identity, Transform.Identity,
          true, true⟩)).getTransform ⟨22 / 7, fun _ => 4 / 5, fun _ => 3 / 5⟩).1.transformPointV
      (runCalls ⟨22 / 7, fun _ => 4 / 5, fun _ => 3 / 5⟩
        [Call.setCenter 3 4, Call.setSize 8 6, Call.setRotation 30]
        (View0 ⟨⟨0, 0⟩, ⟨0, 0⟩, 0, ⟨0, 0, 1, 1⟩, Transform.Identity, Transform.Identity,
          true, true⟩)).getCenter = { x := 0, y := 0 } :=
  (getTransform_maps_center ⟨22 / 7, fun _ => 4 / 5, fun _ => 3 / 5⟩ _
    (Coherent_runCalls _ _ _ (Coherent_ViewRect _ _ _))
    (by norm_num [runCalls, Call.apply, setCenter, setSize, setRotation, getSize])
    (by norm_num [runCalls, Call.apply, setCenter, setSize, setRotation, getSize])).1

/-- C36: for every view with coherent caches whose size components `w` and `h` are
non-zero, and cosine and sine with `cosine^2 + sine^2 = 1`, the forward transform has
determinant `-4 / (w * h)`, which is not zero; `getInverseTransform()` is its
`getInverse()` taken on the inverse branch, and applying it after `getTransform()`
gives every point back, in exact arithmetic. -/
theorem getInverseTransform_inverts (T : Trig) (v : View) (hv : Coherent T v)
    (hw : v.getSize.x ≠ 0) (hh : v.getSize.y ≠ 0)
    (htrig : T.cos (v.getRotation * T.pi / 180) ^ 2 +
      T.sin (v.getRotation * T.pi / 180) ^ 2 = 1) (p : Vector2f) :
    (v.getTransform T).1.det = -4 / (v.getSize.x * v.getSize.y) ∧
      (v.getTransform T).1.det ≠ 0 ∧
      (v.getInverseTransform T).1 = (v.getTransform T).1.getInverse ∧
      (v.getInverseTransform T).1.M = ((v.getTransform T).1.M)⁻¹ ∧
      (v.getInverseTransform T).1.transformPointV ((v.getTransform T).1.transformPointV p) = p ∧
      (v.getInverseTransform T).1.transformPointV
        (((v.getInverseTransform T).2.getTransform T).1.transformPointV p) = p := by
  simp only [getSize, getRotation] at hw hh htrig ⊢
  have hf := getTransform_of_Coherent T v hv
  have hd : (v.getTransform T).1.det = -4 / (v.m_size.x * v.m_size.y) := by
    rw [hf, det_forwardDerivation, htrig, mul_one]
    field_simp
    ring
  have hne : (v.getTransform T).1.det ≠ 0 := by
    rw [hd]
    exact div_ne_zero (by norm_num) (mul_ne_zero hw hh)
  have hi : (v.getInverseTransform T).1 = (v.getTransform T).1.getInverse := by
    rw [(getInverseTransform_of_Coherent T v hv).1, hf]
  have haff : Transform.IsAffine (v.getTransform T).1 := by
    rw [hf]
    exact IsAffine_forwardDerivation T _ _ _
  have hsame : ((v.getInverseTransform T).2.getTransform T).1 = (v.getTransform T).1 := by
    obtain ⟨c1, c2, c3⟩ := getInverseTransform_state T v
    rw [getTransform_of_Coherent T _ (Coherent_getInverseTransform T v hv), c1, c2, c3, hf]
  refine ⟨hd, hne, hi, ?_, ?_, ?_⟩
  · rw [hi]
    exact (Matrix.inv_eq_right_inv (Transform.M_mul_M_getInverse _ hne)).symm
  · rw [hi]
    exact Transform.getInverse_after _ haff hne p
  · rw [hsame, hi]
    exact Transform.getInverse_after _ haff hne p

/-- C36 at a default-constructed view (size `(1000, 1000)`, rotation 0) with cosine 1
and sine 0: the determinant is `-4 / 1000000` and the point `(12, 34)` comes back. -/
theorem getInverseTransform_inverts_witness :
    ((View0 ⟨⟨0, 0⟩, ⟨0, 0⟩, 0, ⟨0, 0, 1, 1⟩, Transform.Identity, Transform.Identity,
        true, true⟩).getTransform ⟨22 / 7, fun _ => 1, fun _ => 0⟩).1.det = -4 / 1000000 ∧
      ((View0 ⟨⟨0, 0⟩, ⟨0, 0⟩, 0, ⟨0, 0, 1, 1⟩, Transform.Identity, Transform.Identity,
        true, true⟩).getInverseTransform ⟨22 / 7, fun _ => 1, fun _ => 0⟩).1.transformPointV
        (((View0 ⟨⟨0, 0⟩, ⟨0, 0⟩, 0, ⟨0, 0, 1, 1⟩, Transform.Identity, Transform.Identity,
          true, true⟩).getTransform ⟨22 / 7, fun _ => 1, fun _ => 0⟩).1.transformPointV
          { x := 12, y := 34 }) = { x := 12, y := 34 } := by
  obtain ⟨h1, _, _, _, h5, _⟩ := getInverseTransform_inverts ⟨22 / 7, fun _ => 1, fun _ => 0⟩
    (View0 ⟨⟨0, 0⟩, ⟨0, 0⟩, 0, ⟨0, 0, 1, 1⟩, Transform.Identity, Transform.Identity,
      true, true⟩)
    (Coherent_ViewRect _ _ _)
    (by norm_num [View0, reset, getSize]) (by norm_num [View0, reset, getSize])
    (by norm_num) { x := 12, y := 34 }
  refine ⟨?_, h5⟩
  rw [h1]
  norm_num [View0, reset, getSize]

end View

namespace Float32

/-! ## Binary32 roundings -/

/-- Sample roundings: `0.1f` is `13421773 / 2^27`; `2^25 + 1` and `2^25 + 2` (a tie)
round to `2^25`; `2^128` overflows; the largest finite value is kept; half the
smallest subnormal `2^-149` (a tie) rounds to zero and three quarters of it to
`2^-149`. -/
theorem ofRat_values :
    ofRat (1 / 10) = fin (13421773 / 134217728) ∧
      ofRat (33554432 + 1) = fin 33554432 ∧
      ofRat (33554432 + 2) = fin 33554432 ∧
      ofRat (33554432 + 3) = fin 33554436 ∧
      ofRat (2 ^ 128) = inf false ∧
      ofRat (-(2 ^ 128)) = inf true ∧
      ofRat maxFinite = fin maxFinite ∧
      ofRat (1 / 2 ^ 150) = fin 0 ∧
      ofRat (3 / 2 ^ 151) = fin (1 / 2 ^ 149) := by
  decide!

/-- The rationals used as inputs in the statements below are binary32 values:
rounding leaves them unchanged. -/
theorem ofRat_inputs :
    ofRat (1 / 2) = fin (1 / 2) ∧
      ofRat (-33554432) = fin (-33554432) ∧
      ofRat (3 / 2 ^ 25) = fin (3 / 2 ^ 25) ∧
      ofRat (1 + 1 / 2 ^ 23) = fin (1 + 1 / 2 ^ 23) ∧
      ofRat (2 ^ 64) = fin (2 ^ 64) ∧
      ofRat (1 / 2 ^ 100) = fin (1 / 2 ^ 100) ∧
      ofRat (1 / 2 ^ 149) = fin (1 / 2 ^ 149) ∧
      ofRat (13176795 / 4194304) = fin (13176795 / 4194304) ∧
      ofRat (13176795 / 8388608) = fin (13176795 / 8388608) ∧
      ofRat (-12303662 / 2 ^ 48) = fin (-12303662 / 2 ^ 48) := by
  decide!

end Float32

namespace binary32

namespace Transform

open Float32

/-! ## Evaluations in binary32 -/

/-- Evaluations with the decimal input `0.1f`, which is `ofRat (1 / 10)`.
`Transform().translate(0.1f, 0).transformRect(FloatRect(-3, 0, 2, 1))` has left
`-2.9000001` and width 2, so that left + width is `-0.90000010`, below the corner at
`x = -0.89999998`; `Identity.transformRect(FloatRect(-5, 0, 0.1f, 1))` has width
`0.0999999`; the quarter turn of `FloatRect(0, -5, 1, 0.1f)` has width `0.0999999`;
`Transform().scale(0.1f, 0.1f, 3, 3)` maps `(3, 3)` to `(2.9999998, 2.9999998)`. -/
theorem decimal_samples :
    (Identity.translate (ofRat (1 / 10)) 0).transformRect
        { left := -3, top := 0, width := 2, height := 1 } =
        { left := fin (-6081741 / 2097152), top := fin 0, width := fin 2, height := fin 1 } ∧
      (fin (-6081741 / 2097152) : Float32) + fin 2 = fin (-1887437 / 2097152) ∧
      ((Identity.translate (ofRat (1 / 10)) 0).transformPoint (-3 + 2) 0).x =
        fin (-7549747 / 8388608) ∧
      (fin (-1887437 / 2097152) : Float32) < fin (-7549747 / 8388608) ∧
      Identity.transformRect { left := -5, top := 0, width := ofRat (1 / 10), height := 1 } =
        { left := fin (-5), top := fin 0, width := fin (209715 / 2097152), height := fin 1 } ∧
      (Transform9 0 (-1) 0 1 0 0 0 0 1).transformRect
        { left := 0, top := -5, width := 1, height := ofRat (1 / 10) } =
        { left := fin (10276045 / 2097152), top := fin 0, width := fin (209715 / 2097152),
          height := fin 1 } ∧
      (Identity.scaleCenter (ofRat (1 / 10)) (ofRat (1 / 10)) 3 3).transformPoint 3 3 =
        { x := fin (12582911 / 4194304), y := fin (12582911 / 4194304) } := by
  decide!

/-! ## Claims under binary32 rounding -/

/-- C7, as stated, fails in binary32. For `Transform(1,0,0.5, 0,1,0, 0,0,1)` and the
rectangle `(-2^25, 0, 2^25, 1)` the transformed corners have x values `-2^25` (for
`-2^25 + 0.5` rounds to it) and `0.5`; the returned width is the rounded difference
`0.5 + 2^25`, which is `2^25`, so `left + width` is 0 and the corner at `x = 0.5`
lies outside the returned rectangle. -/
theorem transformRect_bounding_box_counterexample :
    (Transform9 1 0 (fin (1 / 2)) 0 1 0 0 0 1).transformRectPoints
        { left := fin (-33554432), top := 0, width := fin 33554432, height := 1 } =
        [{ x := fin (-33554432), y := fin 0 }, { x := fin (-33554432), y := fin 1 },
          { x := fin (1 / 2), y := fin 0 }, { x := fin (1 / 2), y := fin 1 }] ∧
      (Transform9 1 0 (fin (1 / 2)) 0 1 0 0 0 1).transformRect
        { left := fin (-33554432), top := 0, width := fin 33554432, height := 1 } =
        { left := fin (-33554432), top := fin 0, width := fin 33554432, height := fin 1 } ∧
      ((Transform9 1 0 (fin (1 / 2)) 0 1 0 0 0 1).transformRect
          { left := fin (-33554432), top := 0, width := fin 33554432, height := 1 }).left +
        ((Transform9 1 0 (fin (1 / 2)) 0 1 0 0 0 1).transformRect
          { left := fin (-33554432), top := 0, width := fin 33554432, height := 1 }).width =
        fin 0 ∧
      ((Transform9 1 0 (fin (1 / 2)) 0 1 0 0 0 1).transformRect
          { left := fin (-33554432), top := 0, width := fin 33554432, height := 1 }).left +
        ((Transform9 1 0 (fin (1 / 2)) 0 1 0 0 0 1).transformRect
          { left := fin (-33554432), top := 0, width := fin 33554432, height := 1 }).width <
        ((Transform9 1 0 (fin (1 / 2)) 0 1 0 0 0 1).transformPoint
          (fin (-33554432) + fin 33554432) 0).x := by
  decide!

/-- C8, as stated, fails in binary32, in two ways. A negative width is normalised:
`Identity.transformRect` turns `(0, 0, -1, 1)` into `(-1, 0, 1, 1)`. And a
non-negative width is lost to rounding: for `(2^25, 0, 1, 1)` the corner
`2^25 + 1` rounds to `2^25`, and the returned rectangle is `(2^25, 0, 0, 1)`. -/
theorem transformRect_Identity_rounding_counterexample :
    Identity.transformRect { left := 0, top := 0, width := -1, height := 1 } =
        { left := fin (-1), top := fin 0, width := fin 1, height := fin 1 } ∧
      Identity.transformRect { left := 0, top := 0, width := -1, height := 1 } ≠
        { left := 0, top := 0, width := -1, height := 1 } ∧
      Identity.transformRect { left := fin 33554432, top := 0, width := 1, height := 1 } =
        { left := fin 33554432, top := fin 0, width := fin 0, height := fin 1 } ∧
      Identity.transformRect { left := fin 33554432, top := 0, width := 1, height := 1 } ≠
        { left := fin 33554432, top := 0, width := 1, height := 1 } := by
  decide!

/-- C9, as stated, fails in binary32. For `rotate(90, 3, 4)` the angle in radians is
`13176795 / 2^23`, whose cosine is about `-4.371139e-8` and whose sine is 1; `1 -
cosine` rounds to 1, the translation terms are 7 and 1, and the center `(3, 4)` is
mapped to `(3, 4 - 2^-22)`. -/
theorem rotateCenter_center_counterexample :
    (90 : Float32) * libm.pi / 180 = fin (13176795 / 8388608) ∧
      Identity.rotateCenter libm 90 3 4 =
        Transform9 (fin (-12303662 / 2 ^ 48)) (fin (-1)) (fin 7)
          (fin 1) (fin (-12303662 / 2 ^ 48)) (fin 1) 0 0 1 ∧
      (Identity.rotateCenter libm 90 3 4).transformPoint 3 4 =
        { x := fin 3, y := fin (4 - 1 / 2 ^ 22) } ∧
      (Identity.rotateCenter libm 90 3 4).transformPoint 3 4 ≠ { x := 3, y := 4 } := by
  decide!

/-- C26, as stated, fails in binary32. With `T = Transform(3,0,0, 0,1,0, 0,0,1)`,
the offset `(3 * 2^-25, 0)` and the point `(1, 0)`: `T.translate(..)` has the
translation term `9 * 2^-25` and maps the point to `x = 3 + 2^-22`, while
`1 + 3 * 2^-25` rounds to `1 + 2^-23`, which `T` maps to `x = 3 + 2^-21`. -/
theorem translate_transformPoint_counterexample :
    ((Transform9 3 0 0 0 1 0 0 0 1).translate (fin (3 / 2 ^ 25)) 0).transformPoint 1 0 =
        { x := fin (3 + 1 / 2 ^ 22), y := fin 0 } ∧
      (Transform9 3 0 0 0 1 0 0 0 1).transformPoint (1 + fin (3 / 2 ^ 25)) (0 + 0) =
        { x := fin (3 + 1 / 2 ^ 21), y := fin 0 } ∧
      ((Transform9 3 0 0 0 1 0 0 0 1).translate (fin (3 / 2 ^ 25)) 0).transformPoint 1 0 ≠
        (Transform9 3 0 0 0 1 0 0 0 1).transformPoint (1 + fin (3 / 2 ^ 25)) (0 + 0) := by
  decide!

/-- C27, as stated, fails in binary32. With the factors `(5, 5)` and the center
`(c, c)` for `c = 1 + 2^-23`, the translation terms are `-4 * c` exactly, but the
product `5 * c` rounds to `5 + 2^-21`, and the center is mapped to `(1, 1)`, not to
itself. -/
theorem scaleCenter_center_counterexample :
    Identity.scaleCenter 5 5 (fin (1 + 1 / 2 ^ 23)) (fin (1 + 1 / 2 ^ 23)) =
        Transform9 5 0 (fin (-4 * (1 + 1 / 2 ^ 23))) 0 5 (fin (-4 * (1 + 1 / 2 ^ 23)))
          0 0 1 ∧
      (fin (1 + 1 / 2 ^ 23) : Float32) * (1 - 5) = fin (-4 * (1 + 1 / 2 ^ 23)) ∧
      (5 : Float32) * fin (1 + 1 / 2 ^ 23) = fin (5 + 1 / 2 ^ 21) ∧
      (Identity.scaleCenter 5 5 (fin (1 + 1 / 2 ^ 23)) (fin (1 + 1 / 2 ^ 23))).transformPoint
        (fin (1 + 1 / 2 ^ 23)) (fin (1 + 1 / 2 ^ 23)) = { x := fin 1, y := fin 1 } ∧
      (Identity.scaleCenter 5 5 (fin (1 + 1 / 2 ^ 23)) (fin (1 + 1 / 2 ^ 23))).transformPoint
        (fin (1 + 1 / 2 ^ 23)) (fin (1 + 1 / 2 ^ 23)) ≠
        { x := fin (1 + 1 / 2 ^ 23), y := fin (1 + 1 / 2 ^ 23) } := by
  decide!

/-- C29, as stated, fails in binary32. For the exact quarter turn and the rectangle
`(0, 2^25, 1, 1)`, of width 1 and height 1, the corner `2^25 + 1` rounds to `2^25`:
all four rotated corners have `x = -2^25` and the returned width is 0, not the
height 1. -/
theorem transformRect_quarter_counterexample :
    (Transform9 0 (-1) 0 1 0 0 0 0 1).transformRect
        { left := 0, top := fin 33554432, width := 1, height := 1 } =
        { left := fin (-33554432), top := fin 0, width := fin 0, height := fin 1 } ∧
      ((Transform9 0 (-1) 0 1 0 0 0 0 1).transformRect
        { left := 0, top := fin 33554432, width := 1, height := 1 }).width ≠ 1 := by
  decide!

end Transform

namespace View

open Float32

/-- C23, as stated, fails in binary32. The default view has center `(500, 500)`, size
`(1000, 1000)` and rotation 0; the coefficient `2 / 1000` rounds to `8589935 / 2^32`,
and the world point `(750, 625)`, which is `(center.x + s*w/2, center.y + t*h/2)` for
`s = 1/2` and `t = 1/4`, is mapped to `(1/2 + 2^-23, -1/4)`, not to `(1/2, -1/4)`. -/
theorem getTransform_window_counterexample :
    ((View0 initialMembers).getTransform libm).1 =
        Transform.Transform9 (fin (8589935 / 2 ^ 32)) 0 (fin (-1))
          0 (fin (-8589935 / 2 ^ 32)) (fin 1) 0 0 1 ∧
      ((View0 initialMembers).getTransform libm).1.transformPoint 750 625 =
        { x := fin (1 / 2 + 1 / 2 ^ 23), y := fin (-1 / 4) } ∧
      ((View0 initialMembers).getTransform libm).1.transformPoint 750 625 ≠
        { x := fin (1 / 2), y := fin (-1 / 4) } := by
  decide!

end View

namespace Vector2f

open Float32

/-- C39: for a `float` scalar `s`, the expressions `v + s` and `v - s` select the
overloads that `Vector2.hpp` declares with `const float` and that have no definition,
so they yield nothing, for instance at `v = (1, 2)` and `s = 3.f`. The templates that
`Vector2.inl` defines are reached with an `int` scalar; they write the rounded sums
(differences) to the left operand and return a reference to it, while the
vector-vector overloads only return a new value. -/
theorem scalar_operators_float_undefined :
    (∀ (v : Vector2f) (s : Float32),
        v.addScalar (.ofFloat s) = none ∧ v.subScalar (.ofFloat s) = none) ∧
      (∀ (v : Vector2f) (n : ℤ),
        v.addScalar (.ofInt n) =
            some ({ x := v.x + ofRat n, y := v.y + ofRat n },
                  { x := v.x + ofRat n, y := v.y + ofRat n }) ∧
          v.subScalar (.ofInt n) =
            some ({ x := v.x - ofRat n, y := v.y - ofRat n },
                  { x := v.x - ofRat n, y := v.y - ofRat n })) ∧
      Vector2f.addScalar { x := 1, y := 2 } (.ofFloat 3) = none ∧
      Vector2f.subScalar { x := 1, y := 2 } (.ofFloat 3) = none ∧
      Vector2f.addScalar { x := 1, y := 2 } (.ofInt 3) =
        some ({ x := fin 4, y := fin 5 }, { x := fin 4, y := fin 5 }) ∧
      Vector2f.subScalar { x := 1, y := 2 } (.ofInt 3) =
        some ({ x := fin (-2), y := fin (-1) }, { x := fin (-2), y := fin (-1) }) ∧
      Vector2f.opAdd { x := 1, y := 2 } { x := 3, y := 3 } = { x := fin 4, y := fin 5 } ∧
      Vector2f.opSub { x := 1, y := 2 } { x := 3, y := 3 } =
        { x := fin (-2), y := fin (-1) } := by
  refine ⟨fun v s => ⟨rfl, rfl⟩, fun v n => ⟨rfl, rfl⟩, ?_⟩
  decide!

end Vector2f

end binary32

end sf
